import Mathlib

/-!
Verification development for the `typeorm-url-query-builder` repository
(an advanced URL query-string parser for TypeORM).

The embedding models JavaScript strings as `List Char` and translates the
source functions (`src/where-builder.ts`, `src/utils.ts`, `src/builder.ts`,
`src/index.ts`) into executable Lean definitions.  JavaScript `undefined`
string operands are modelled with `Option`; code paths that throw a runtime
exception (a method call on `undefined`, a failing `JSON.parse`) are modelled
with `Except Unit`.
-/

namespace UrlQuery

/-- JavaScript strings are modelled as lists of characters. -/
abbrev Str := List Char

/-- Whitespace recognised by the model of JavaScript `trim` (the common
ASCII whitespace characters; the full JS definition also covers further
Unicode space characters that never occur in the claims). -/
def isWs (c : Char) : Bool :=
  c = ' ' ∨ c = '\t' ∨ c = '\n' ∨ c = '\r'

/-- Fuel-indexed worker for the model of JavaScript
`String.prototype.split` with a non-empty string separator: scan left to
right, cutting at each leftmost occurrence of the separator.  The fuel is
an upper bound on the number of consumed characters; `jsSplitL` supplies
enough fuel, so the `0` case is never reached on its own calls. -/
def jsSplitAux (sep : Str) : Nat → Str → List Str
  | 0, s => [s]
  | _ + 1, [] => [[]]
  | fuel + 1, c :: rest =>
    if sep.isPrefixOf (c :: rest) ∧ sep ≠ [] then
      [] :: jsSplitAux sep fuel (rest.drop (sep.length - 1))
    else
      match jsSplitAux sep fuel rest with
      | [] => [[c]]
      | h :: t => (c :: h) :: t

/-- Model of JavaScript `s.split(sep)` for a non-empty separator `sep`
(all separators used by the library are non-empty). -/
def jsSplitL (sep s : Str) : List Str :=
  jsSplitAux sep (s.length + 1) s

/-- Decidable substring test, modelling JavaScript `s.includes(pat)`. -/
def containsSub (pat s : Str) : Bool :=
  (List.range (s.length + 1)).any (fun i => pat.isPrefixOf (s.drop i))

/-- JS `Set.add` on an insertion-ordered set modelled as a duplicate-free
list: appends the element only when it is not yet present. -/
def addToSet (l : List Str) (x : Str) : List Str :=
  if x ∈ l then l else l ++ [x]

/-- JS object property assignment `obj[k] = v` on an insertion-ordered
association list: an existing key keeps its original position and gets the
new value, a new key is appended. -/
def setKey {β : Type} (m : List (Str × β)) (k : Str) (v : β) : List (Str × β) :=
  if m.any (fun p => p.1 = k) then
    m.map (fun p => if p.1 = k then (k, v) else p)
  else m ++ [(k, v)]

/-- Uppercasing a JS string (`toUpperCase`), restricted to ASCII. -/
def toUpper (s : Str) : Str := s.map Char.toUpper

/-- Lowercasing a JS string (`toLowerCase`), restricted to ASCII. -/
def toLower (s : Str) : Str := s.map Char.toLower

/-- Numeric value of a list of decimal digit characters. -/
def digitsVal (s : Str) : Nat :=
  s.foldl (fun acc c => 10 * acc + (c.toNat - '0'.toNat)) 0

/-- Parse an unsigned JS decimal literal `digits [. digits]` (at least one
digit overall) into a rational.  Hexadecimal and exponent forms accepted by
JS `Number` are not used by the library's inputs and are not modelled. -/
def parseDecimal (s : Str) : Option ℚ :=
  let intPart := s.takeWhile Char.isDigit
  let rest := s.dropWhile Char.isDigit
  match rest with
  | [] => if intPart = [] then none else some (digitsVal intPart)
  | '.' :: frac =>
    if frac.all Char.isDigit ∧ (intPart ≠ [] ∨ frac ≠ []) then
      some ((digitsVal intPart : ℚ) + (digitsVal frac : ℚ) / ((10 : ℚ) ^ frac.length))
    else none
  | _ => none

/-- Model of JavaScript `Number(s)` restricted to decimal literals:
whitespace-only strings give `0`, an optional sign followed by a decimal
literal gives that value, anything else is `NaN` (`none`). -/
def jsNumber (s : Str) : Option ℚ :=
  let t := ((s.dropWhile isWs).reverse.dropWhile isWs).reverse
  match t with
  | [] => some 0
  | '-' :: r => (parseDecimal r).map (fun q => -q)
  | '+' :: r => parseDecimal r
  | _ => parseDecimal t

/-- A JavaScript number that may be `NaN` (as produced by `parseInt` on a
non-numeric string).  `parseInt` results are always integral, so the
numeric payload is an integer. -/
inductive JSNumber where
  | num (n : ℤ)
  | nan
  deriving Repr, DecidableEq

/-- `NaN`-propagating multiplication. -/
def JSNumber.mul : JSNumber → JSNumber → JSNumber
  | .num a, .num b => .num (a * b)
  | _, _ => .nan

/-- `NaN`-propagating subtraction. -/
def JSNumber.sub : JSNumber → JSNumber → JSNumber
  | .num a, .num b => .num (a - b)
  | _, _ => .nan

/-- Model of JavaScript `parseInt(s, 10)`: skip leading whitespace, read an
optional sign and then the maximal run of decimal digits; `NaN` when no
digit is found. -/
def jsParseInt (s : Str) : JSNumber :=
  let t := s.dropWhile isWs
  let core := fun (u : Str) =>
    let ds := u.takeWhile Char.isDigit
    if ds = [] then JSNumber.nan else JSNumber.num (digitsVal ds : ℤ)
  match t with
  | '-' :: r =>
    match core r with
    | .num q => .num (-q)
    | .nan => .nan
  | '+' :: r => core r
  | _ => core t

instance {ε α : Type} [DecidableEq ε] [DecidableEq α] : DecidableEq (Except ε α) := fun x y =>
  match x, y with
  | .ok a, .ok b =>
    if h : a = b then .isTrue (h ▸ rfl) else .isFalse (fun hh => h (Except.ok.inj hh))
  | .error a, .error b =>
    if h : a = b then .isTrue (h ▸ rfl) else .isFalse (fun hh => h (Except.error.inj hh))
  | .ok _, .error _ => .isFalse Except.noConfusion
  | .error _, .ok _ => .isFalse Except.noConfusion

/-- Shape of the `yyyy-MM-dd` date pattern (`EDateType.Date`).  This models
`date-fns` `isMatch(value, 'yyyy-MM-dd')` by the digit layout; `isMatch`
additionally rejects out-of-range calendar values, but such strings are not
numeric either, so `parseDateOrNumber` returns the original string in both
models and the divergence is unobservable in its output. -/
def dateShape (s : Str) : Bool :=
  match s with
  | [y1, y2, y3, y4, '-', m1, m2, '-', d1, d2] =>
    y1.isDigit ∧ y2.isDigit ∧ y3.isDigit ∧ y4.isDigit ∧
    m1.isDigit ∧ m2.isDigit ∧ d1.isDigit ∧ d2.isDigit
  | _ => false

/-- Shape of the `yyyy-MM-dd HH:MM:ss` pattern (`EDateType.Datetime`),
modelled as in `dateShape` (same unobservability argument: a string of this
shape is never numeric). -/
def dateTimeShape (s : Str) : Bool :=
  match s with
  | [y1, y2, y3, y4, '-', m1, m2, '-', d1, d2, ' ',
     h1, h2, ':', n1, n2, ':', s1, s2] =>
    y1.isDigit ∧ y2.isDigit ∧ y3.isDigit ∧ y4.isDigit ∧
    m1.isDigit ∧ m2.isDigit ∧ d1.isDigit ∧ d2.isDigit ∧
    h1.isDigit ∧ h2.isDigit ∧ n1.isDigit ∧ n2.isDigit ∧
    s1.isDigit ∧ s2.isDigit
  | _ => false

/-- A scalar operand as produced by `parseDateOrNumber`: a JS string, a JS
number, or the `undefined` value (when the raw operand was missing). -/
inductive Scalar where
  | str (s : Str)
  | num (q : ℚ)
  | undefV
  deriving Repr, DecidableEq

/-- Values that can appear as the resolved value of an AND-group entry:
JS strings and numbers, the `undefined` value, and the TypeORM operator
wrapper objects `Like`, `In`, `Between`, `MoreThan(OrEqual)`,
`LessThan(OrEqual)` and `Not`.  The operand wrappers hold `Scalar`s because
the source always fills them with `parseDateOrNumber` results (or raw value
strings in the `src/index.ts` variant).  The `notOf` constructor covers
both a plain `Not(x)` and a `Not(x)` carrying the `_requiresNotEquals`
marker: the only consumer (`applyWhereConditions`) tests
`value instanceof Not || value._requiresNotEquals`, so the marker never
changes behaviour. -/
inductive JSVal where
  | str (s : Str)
  | num (q : ℚ)
  | undefV
  | like (p : Str)
  | inOf (vs : List Scalar)
  | betweenOf (a b : Scalar)
  | gtOf (v : Scalar)
  | gteOf (v : Scalar)
  | ltOf (v : Scalar)
  | lteOf (v : Scalar)
  | notOf (v : JSVal)
  deriving Repr, DecidableEq

instance : Inhabited Scalar := ⟨.undefV⟩

instance : Inhabited JSVal := ⟨.undefV⟩

/-- Embed a scalar as a plain JS value. -/
def Scalar.toVal : Scalar → JSVal
  | .str s => .str s
  | .num q => .num q
  | .undefV => .undefV

/-- The sentinel string `'IS_NULL'` used by the source as the special
marker for an IS NULL condition. -/
def isNullMarker : JSVal := .str ("IS_NULL".data)

/-- `parseDateOrNumber` from `src/utils.ts` (the identical function also
appears as a private method in `src/index.ts`): date-shaped strings are
kept as strings, otherwise a successful numeric parse yields a number,
otherwise the original string. -/
def parseDateOrNumber (value : Str) : Scalar :=
  if dateShape value ∨ dateTimeShape value then .str value
  else
    match jsNumber value with
    | some q => .num q
    | none => .str value

/-- `parseDateOrNumber` applied to a possibly-`undefined` operand
(`parts[2]` of a two-part condition).  For `undefined` the model returns
`undefined` (date-fns `isMatch` does not match it and `Number(undefined)`
is `NaN`, so the function returns its input). -/
def parseDateOrNumberU : Option Str → Scalar
  | none => .undefV
  | some v => parseDateOrNumber v

/-- JS template-literal interpolation of a possibly-`undefined` string
(`undefined` prints as the text `undefined`). -/
def tmpl : Option Str → Str
  | none => "undefined".data
  | some v => v

/-- The effective (defaults-merged) option object of the builder; field
names follow `IOptionsObject`. -/
structure Options where
  LOOKUP_DELIMITER : Str
  RELATION_DELIMITER : Str
  CONDITION_DELIMITER : Str
  VALUE_DELIMITER : Str
  EXACT : Str
  NOT : Str
  CONTAINS : Str
  IS_NULL : Str
  GT : Str
  GTE : Str
  LT : Str
  LTE : Str
  STARTS_WITH : Str
  ENDS_WITH : Str
  IN : Str
  BETWEEN : Str
  OR : Str
  DEFAULT_LIMIT : Str
  GROUP_START : Str
  GROUP_END : Str
  AND : Str
  NESTED_DELIMITER : Str
  NOT_EQUALS : Str
  deriving Repr, DecidableEq

/-- The default option tokens installed by the `QueryBuilder` constructor
(`src/builder.ts`; `src/index.ts` has the same defaults except that it does
not declare `NOT_EQUALS`, whose absence is modelled where relevant). -/
def defaultOptions : Options where
  LOOKUP_DELIMITER := "||".data
  RELATION_DELIMITER := ".".data
  CONDITION_DELIMITER := ";".data
  VALUE_DELIMITER := ",".data
  EXACT := "$eq".data
  NOT := "!".data
  CONTAINS := "$cont".data
  IS_NULL := "$isnull".data
  GT := "$gt".data
  GTE := "$gte".data
  LT := "$lt".data
  LTE := "$lte".data
  STARTS_WITH := "$starts".data
  ENDS_WITH := "$ends".data
  IN := "$in".data
  BETWEEN := "$between".data
  OR := "$or".data
  DEFAULT_LIMIT := "25".data
  GROUP_START := "(".data
  GROUP_END := ")".data
  AND := "$and".data
  NESTED_DELIMITER := "#".data
  NOT_EQUALS := "$ne".data

/-- One AND-group: the insertion-ordered JS object mapping field paths to
resolved values. -/
abbrev AndGroup := List (Str × JSVal)

/-- `Object.assign(target, source)` for single- or multi-entry sources:
assign every entry of the source into the target in order. -/
def objAssign (target source : AndGroup) : AndGroup :=
  source.foldl (fun acc p => setKey acc p.1 p.2) target

/-- `createWhereObject` from `src/utils.ts`: resolves one
field/operator/value/not-flag into a single-entry where object.  The
`value` is `none` when the condition had only two lookup-delimited parts
(JS `undefined`); the `$in`/`$between` branches then throw
(`undefined.split`), modelled as `.error ()`. -/
def createWhereObject (o : Options) (field operator : Str) (value : Option Str)
    (notOperator : Bool) : Except Unit AndGroup := do
  if operator = o.NOT_EQUALS then
    return [(field, .notOf (parseDateOrNumberU value).toVal)]
  let finalValue ←
    if operator = o.EXACT then
      pure (parseDateOrNumberU value).toVal
    else if operator = o.CONTAINS then
      pure (JSVal.like ('%' :: tmpl value ++ "%".data))
    else if operator = o.STARTS_WITH then
      pure (JSVal.like (tmpl value ++ "%".data))
    else if operator = o.ENDS_WITH then
      pure (JSVal.like ('%' :: tmpl value))
    else if operator = o.IS_NULL then
      pure isNullMarker
    else if operator = o.GT then
      pure (JSVal.gtOf (parseDateOrNumberU value))
    else if operator = o.GTE then
      pure (JSVal.gteOf (parseDateOrNumberU value))
    else if operator = o.LT then
      pure (JSVal.ltOf (parseDateOrNumberU value))
    else if operator = o.LTE then
      pure (JSVal.lteOf (parseDateOrNumberU value))
    else if operator = o.IN then
      match value with
      | none => Except.error ()
      | some v => pure (JSVal.inOf ((jsSplitL o.VALUE_DELIMITER v).map parseDateOrNumber))
    else if operator = o.BETWEEN then
      match value with
      | none => Except.error ()
      | some v =>
        let parts := jsSplitL o.VALUE_DELIMITER v
        pure (JSVal.betweenOf (parseDateOrNumberU (parts.get? 0))
          (parseDateOrNumberU (parts.get? 1)))
    else
      pure (match value with
        | some v => JSVal.str v
        | none => JSVal.undefV)
  if notOperator ∧ operator = o.EXACT then
    return [(field, .notOf (parseDateOrNumberU value).toVal)]
  else if notOperator then
    return [(field, .notOf finalValue)]
  else
    return [(field, finalValue)]

/-- The operator dispatch of one condition inside
`WhereBuilder.parseFilterString` (`src/where-builder.ts`, lines 54-80),
after the field/operator/value extraction: the explicit `$ne` operator and
the negated `!$eq` operator both store a marked `Not(parsedValue)`, IS
NULL stores the sentinel (negated when NOT-prefixed), and every other
operator defers to `createWhereObject` whose single-entry result is
`Object.assign`ed into the group. -/
def condStep (o : Options) (andGroup : AndGroup) (field operator : Str)
    (value : Option Str) : Except Unit AndGroup := do
  if operator = o.NOT_EQUALS then
    return setKey andGroup field (.notOf (parseDateOrNumberU value).toVal)
  let isNot := o.NOT.isPrefixOf operator
  let finalOperator := if isNot then operator.drop o.NOT.length else operator
  if isNot ∧ finalOperator = o.EXACT then
    return setKey andGroup field (.notOf (parseDateOrNumberU value).toVal)
  if finalOperator = o.IS_NULL then
    return setKey andGroup field (if isNot then .notOf isNullMarker else isNullMarker)
  let w ← createWhereObject o field finalOperator value isNot
  return objAssign andGroup w

/-- Processing of one lookup-delimited condition inside
`WhereBuilder.parseFilterString` (`src/where-builder.ts`, the body of the
inner `for` loop): blank or malformed conditions (fewer than two parts, or
an empty field or operator) are skipped, the rest is `condStep`. -/
def procCondition (o : Options) (andGroup : AndGroup) (condition : Str) :
    Except Unit AndGroup := do
  if condition.all isWs then
    return andGroup
  let parts := jsSplitL o.LOOKUP_DELIMITER condition
  if parts.length < 2 then
    return andGroup
  let field := parts.getD 0 []
  let operator := parts.getD 1 []
  let value := parts.get? 2
  if field = [] ∨ operator = [] then
    return andGroup
  condStep o andGroup field operator value

/-- Fold `procCondition` over the AND-delimited conditions of one OR-group. -/
def procConditions (o : Options) : AndGroup → List Str → Except Unit AndGroup
  | g, [] => .ok g
  | g, c :: cs => do procConditions o (← procCondition o g c) cs

/-- Per-OR-group processing of `WhereBuilder.parseFilterString`: split each
OR-group on the AND keyword sequence, resolve its conditions, and push the
resulting AND-group only when it is non-empty. -/
def procOrGroups (o : Options) : List Str → Except Unit (List AndGroup)
  | [] => .ok []
  | g :: gs => do
    let andConditions := jsSplitL (o.LOOKUP_DELIMITER ++ o.AND ++ o.LOOKUP_DELIMITER) g
    let andGroup ← procConditions o [] andConditions
    let rest ← procOrGroups o gs
    if andGroup ≠ [] then
      return andGroup :: rest
    else
      return rest

/-- `WhereBuilder.parseFilterString` (`src/where-builder.ts`): split the
filter string on the OR keyword sequence and process each OR-group. -/
def parseFilterString (o : Options) (filterString : Str) :
    Except Unit (List AndGroup) :=
  if filterString = [] then .ok []
  else procOrGroups o (jsSplitL (o.LOOKUP_DELIMITER ++ o.OR ++ o.LOOKUP_DELIMITER) filterString)

/-- The raw parameter bag (`IParserQueryObject`): each parameter is an
optional raw string (`none` models an absent/`undefined` parameter). -/
structure Query where
  select : Option Str := none
  join : Option Str := none
  sort : Option Str := none
  cache : Option Str := none
  limit : Option Str := none
  page : Option Str := none
  filter : Option Str := none
  deriving Repr, DecidableEq

/-- Truthiness check `notValid` from `src/index.ts` (equivalently the
negation of `isValidParam` from `src/utils.ts`): `undefined` and the empty
string are invalid. -/
def notValid : Option Str → Bool
  | none => true
  | some s => s = []

/-- A JSON value as produced by `JSON.parse` on the cache parameter,
restricted to the literals `true`/`false`/`null` and decimal numbers.
Quoted strings, arrays and objects are also valid JSON but are never
produced by a boolean-intended cache parameter and are not modelled (the
model treats them as parse failures). -/
inductive JsonVal where
  | bool (b : Bool)
  | null
  | num (q : ℚ)
  deriving Repr, DecidableEq

/-- Model of `JSON.parse` on the lower-cased cache string (see `JsonVal`);
a non-literal input throws a `SyntaxError`, modelled as `.error ()`. -/
def jsonParseLite (s : Str) : Except Unit JsonVal :=
  let t := ((s.dropWhile isWs).reverse.dropWhile isWs).reverse
  if t = "true".data then .ok (.bool true)
  else if t = "false".data then .ok (.bool false)
  else if t = "null".data then .ok .null
  else
    match t with
    | '-' :: r => match parseDecimal r with
      | some q => .ok (.num (-q))
      | none => .error ()
    | _ => match parseDecimal t with
      | some q => .ok (.num q)
      | none => .error ()

/-- An entry of the descriptor's `order` mapping as built by
`QueryBuilder.build` (`src/index.ts`): either the bare direction string or
a `{order, nulls}` record when a nulls placement was given. -/
inductive OrderVal where
  | plain (dir : Str)
  | withNulls (dir : Str) (nulls : Str)
  deriving Repr, DecidableEq

/-- The structured query descriptor (`IQueryTypeOrm`).  The `where` key of
the source is called `whereList` here because `where` is a reserved word in
Lean. -/
structure Descriptor where
  select : Option (List (Str × Bool)) := none
  relations : Option (List Str) := none
  order : Option (List (Str × OrderVal)) := none
  cache : Option JsonVal := none
  take : Option JSNumber := none
  skip : Option JSNumber := none
  whereList : Option (List AndGroup) := none
  deriving Repr, DecidableEq

/-- One clause of `createOrderArray` (`src/index.ts` and `src/builder.ts`):
`[field, direction?, nullsPosition?]` with the direction defaulting to
`ASC`, upper-cased, and a third segment recognised as a nulls placement. -/
def procSortClause (o : Options) (order : List (Str × (Str × Option Str)))
    (condition : Str) : List (Str × (Str × Option Str)) :=
  let parts := jsSplitL o.VALUE_DELIMITER condition
  if 0 < parts.length ∧ parts.getD 0 [] ≠ [] then
    let key := parts.getD 0 []
    let rawDir := match parts.get? 1 with
      | some d => if d = [] then "ASC".data else d
      | none => "ASC".data
    let direction := toUpper rawDir
    let nulls :=
      if 2 < parts.length then
        let nullsOption := toUpper (parts.getD 2 [])
        if nullsOption = "NULLS FIRST".data ∨ nullsOption = "NULLS_FIRST".data then
          some ("NULLS FIRST".data)
        else if nullsOption = "NULLS LAST".data ∨ nullsOption = "NULLS_LAST".data then
          some ("NULLS LAST".data)
        else none
      else none
    setKey order key (direction, nulls)
  else order

/-- `createOrderArray`: split the sort string on the condition delimiter
and process each clause. -/
def createOrderArray (o : Options) (sortString : Str) :
    List (Str × (Str × Option Str)) :=
  (jsSplitL o.CONDITION_DELIMITER sortString).foldl (procSortClause o) []

namespace QB

/-- `createWhereObject` as defined privately in `src/index.ts`.  This
historical variant differs from `src/utils.ts`: there is no `$ne`
pre-branch, the `$eq` target is stored raw (uncoerced), and the `$in`
members are stored as raw strings. -/
def createWhereObject (o : Options) (field operator : Str) (value : Option Str)
    (notOperator : Bool) : Except Unit AndGroup := do
  let finalValue ←
    if operator = o.EXACT then
      pure (match value with
        | some v => JSVal.str v
        | none => JSVal.undefV)
    else if operator = o.CONTAINS then
      pure (JSVal.like ('%' :: tmpl value ++ "%".data))
    else if operator = o.STARTS_WITH then
      pure (JSVal.like (tmpl value ++ "%".data))
    else if operator = o.ENDS_WITH then
      pure (JSVal.like ('%' :: tmpl value))
    else if operator = o.IS_NULL then
      pure isNullMarker
    else if operator = o.GT then
      pure (JSVal.gtOf (parseDateOrNumberU value))
    else if operator = o.GTE then
      pure (JSVal.gteOf (parseDateOrNumberU value))
    else if operator = o.LT then
      pure (JSVal.ltOf (parseDateOrNumberU value))
    else if operator = o.LTE then
      pure (JSVal.lteOf (parseDateOrNumberU value))
    else if operator = o.IN then
      match value with
      | none => Except.error ()
      | some v => pure (JSVal.inOf ((jsSplitL o.VALUE_DELIMITER v).map Scalar.str))
    else if operator = o.BETWEEN then
      match value with
      | none => Except.error ()
      | some v =>
        let parts := jsSplitL o.VALUE_DELIMITER v
        pure (JSVal.betweenOf (parseDateOrNumberU (parts.get? 0))
          (parseDateOrNumberU (parts.get? 1)))
    else
      pure (match value with
        | some v => JSVal.str v
        | none => JSVal.undefV)
  if notOperator then
    return [(field, .notOf finalValue)]
  else
    return [(field, finalValue)]

/-- The operator dispatch of one condition of
`QueryBuilder.parseFilterString` (`src/index.ts`).  This variant has no
`$ne` branch, and its IS NULL branch stores the plain sentinel regardless
of the NOT prefix. -/
def condStep (o : Options) (andGroup : AndGroup) (field operator : Str)
    (value : Option Str) : Except Unit AndGroup := do
  let isNot := o.NOT.isPrefixOf operator
  let finalOperator := if isNot then operator.drop o.NOT.length else operator
  if finalOperator = o.IS_NULL then
    return setKey andGroup field isNullMarker
  let w ← createWhereObject o field finalOperator value isNot
  return objAssign andGroup w

/-- One condition of `QueryBuilder.parseFilterString` (`src/index.ts`):
skip blank and malformed conditions, then dispatch on the operator. -/
def procCondition (o : Options) (andGroup : AndGroup) (condition : Str) :
    Except Unit AndGroup := do
  if condition.all isWs then
    return andGroup
  let parts := jsSplitL o.LOOKUP_DELIMITER condition
  if parts.length < 2 then
    return andGroup
  let field := parts.getD 0 []
  let operator := parts.getD 1 []
  let value := parts.get? 2
  if field = [] ∨ operator = [] then
    return andGroup
  condStep o andGroup field operator value

/-- Fold `QB.procCondition` over the AND-delimited conditions. -/
def procConditions (o : Options) : AndGroup → List Str → Except Unit AndGroup
  | g, [] => .ok g
  | g, c :: cs => do procConditions o (← procCondition o g c) cs

/-- Per-OR-group processing of `QueryBuilder.parseFilterString`
(`src/index.ts`). -/
def procOrGroups (o : Options) : List Str → Except Unit (List AndGroup)
  | [] => .ok []
  | g :: gs => do
    let andConditions := jsSplitL (o.LOOKUP_DELIMITER ++ o.AND ++ o.LOOKUP_DELIMITER) g
    let andGroup ← procConditions o [] andConditions
    let rest ← procOrGroups o gs
    if andGroup ≠ [] then
      return andGroup :: rest
    else
      return rest

/-- `QueryBuilder.parseFilterString` (`src/index.ts`). -/
def parseFilterString (o : Options) (filterString : Str) :
    Except Unit (List AndGroup) :=
  if filterString = [] then .ok []
  else procOrGroups o (jsSplitL (o.LOOKUP_DELIMITER ++ o.OR ++ o.LOOKUP_DELIMITER) filterString)

/-- `handleNestedField` (`src/index.ts`, lines 521-533): builds the
right-folded nested object for a `#`-delimited path, the innermost segment
mapping to the value.  The result is modelled as nested single-entry
association lists inside `JSVal`; since `JSVal` has no object constructor
(the parser never builds one), the result type here is a standalone nested
pair tree.  Note: this helper is defined in the source but never invoked
by any parser path. -/
inductive NestedObj where
  | leaf (v : JSVal)
  | node (key : Str) (inner : NestedObj)
  deriving Repr, DecidableEq

/-- The right fold performed by `handleNestedField`: each outer segment
wraps the previous result. -/
def handleNestedField (o : Options) (field : Str) (value : JSVal) : NestedObj :=
  (jsSplitL o.NESTED_DELIMITER field).foldr (fun seg acc => .node seg acc) (.leaf value)

/-- The `select` step of `QueryBuilder.build` (`src/index.ts`): split the
select parameter on the value delimiter and reduce the fields into the
`true`-valued select mapping. -/
def buildSelect (o : Options) (q : Query) (output : Descriptor) : Descriptor :=
  if ¬ notValid q.select then
    let selectFields := jsSplitL o.VALUE_DELIMITER (q.select.getD [])
    { output with select := some (selectFields.foldl (fun acc f => setKey acc f true) []) }
  else output

/-- The `join` step of `QueryBuilder.build`: the relations list verbatim. -/
def buildJoin (o : Options) (q : Query) (output : Descriptor) : Descriptor :=
  if ¬ notValid q.join then
    { output with relations := some (jsSplitL o.VALUE_DELIMITER (q.join.getD [])) }
  else output

/-- The `sort` step of `QueryBuilder.build`: convert the `createOrderArray`
result to the TypeORM order format (bare direction, or a record when a
nulls placement was given). -/
def buildSort (o : Options) (q : Query) (output : Descriptor) : Descriptor :=
  if ¬ notValid q.sort then
    let orderByObj := createOrderArray o (q.sort.getD [])
    let order := orderByObj.foldl (fun acc p =>
      match p.2.2 with
      | some n => acc ++ [(p.1, OrderVal.withNulls p.2.1 n)]
      | none => acc ++ [(p.1, OrderVal.plain p.2.1)]) []
    { output with order := some order }
  else output

/-- The `cache` step of `QueryBuilder.build`: `JSON.parse` of the
lower-cased cache string (can throw). -/
def buildCache (q : Query) (output : Descriptor) : Except Unit Descriptor :=
  if ¬ notValid q.cache then do
    let parsed ← jsonParseLite (toLower (q.cache.getD []))
    return { output with cache := some parsed }
  else .ok output

/-- The `limit` step of `QueryBuilder.build`: `parseInt` of the limit. -/
def buildLimit (q : Query) (output : Descriptor) : Descriptor :=
  if ¬ notValid q.limit then
    { output with take := some (jsParseInt (q.limit.getD [])) }
  else output

/-- The `page` step of `QueryBuilder.build`: the effective limit is the
truthy limit parameter or the configured default, and
`skip = limit * (page - 1)`, `take = limit`. -/
def buildPage (o : Options) (q : Query) (output : Descriptor) : Descriptor :=
  if ¬ notValid q.page then
    let limit := match q.limit with
      | some l => if l = [] then o.DEFAULT_LIMIT else l
      | none => o.DEFAULT_LIMIT
    let limitnum := jsParseInt limit
    { output with
      skip := some (limitnum.mul ((jsParseInt (q.page.getD [])).sub (.num 1)))
      take := some limitnum }
  else output

/-- The `filter` step of `QueryBuilder.build`: delegate to
`parseFilterString` (can throw) and store the result as the where list. -/
def buildFilter (o : Options) (q : Query) (output : Descriptor) :
    Except Unit Descriptor :=
  if ¬ notValid q.filter then do
    let parsedFilter ← parseFilterString o (q.filter.getD [])
    return { output with whereList := some parsedFilter }
  else .ok output

/-- `QueryBuilder.build` (`src/index.ts`, lines 138-194): assemble the
descriptor parameter by parameter, in source order. -/
def build (o : Options) (q : Query) : Except Unit Descriptor := do
  let output := buildSelect o q {}
  let output := buildJoin o q output
  let output := buildSort o q output
  let output ← buildCache q output
  let output := buildLimit q output
  let output := buildPage o q output
  buildFilter o q output

end QB

/-- A structured SQL predicate fragment as emitted into the query builder
by `WhereBuilder.applyWhereConditions` / `buildWhereClause`
(`src/where-builder.ts`).  `col` is the qualified column reference
(`alias.field`), `param` the generated parameter name; `neF` renders as the
explicit `<>` comparison. -/
inductive SQLFrag where
  | isNullF (col : Str)
  | isNotNullF (col : Str)
  | eqF (col param : Str) (v : JSVal)
  | neF (col param : Str) (v : JSVal)
  | inF (col param : Str) (vs : List Scalar)
  | betweenF (col param : Str) (a b : Scalar)
  | likeF (col param : Str) (p : Str)
  | gtF (col param : Str) (v : Scalar)
  | gteF (col param : Str) (v : Scalar)
  | ltF (col param : Str) (v : Scalar)
  | lteF (col param : Str) (v : Scalar)
  deriving Repr, DecidableEq

/-- JS `typeof value === 'object' && value !== null` on a resolved value:
the TypeORM wrapper objects are objects, strings/numbers/`undefined` are
not. -/
def typeofObject : JSVal → Bool
  | .like _ | .inOf _ | .betweenOf _ _ => true
  | .gtOf _ | .gteOf _ | .ltOf _ | .lteOf _ | .notOf _ => true
  | .str _ | .num _ | .undefV => false

/-- `WhereBuilder.buildWhereClause` (`src/where-builder.ts`, lines
295-361): render one complex resolved value as a predicate fragment; the
`Not` branch emits `IS NOT NULL` for the sentinel and the explicit `<>`
otherwise; the default branch is equality. -/
def buildWhereClause (aliasStr field : Str) (value : JSVal) (paramName : Str) :
    SQLFrag :=
  let col := aliasStr ++ ".".data ++ field
  match value with
  | .inOf vs => .inF col paramName vs
  | .betweenOf a b => .betweenF col paramName a b
  | .like p => .likeF col paramName p
  | .gtOf v => .gtF col paramName v
  | .gteOf v => .gteF col paramName v
  | .ltOf v => .ltF col paramName v
  | .lteOf v => .lteF col paramName v
  | .notOf nv =>
    if nv = isNullMarker then .isNotNullF col else .neF col paramName nv
  | v => .eqF col paramName v

/-- `field.replace(/\./g, '_')`. -/
def replaceDots (s : Str) : Str := s.map (fun c => if c = '.' then '_' else c)

/-- One iteration of the `Object.entries(conditions).forEach` loop of
`WhereBuilder.applyWhereConditions` (`src/where-builder.ts`, lines
94-290).  `rnd` stands for the random parameter-name suffix
(`Math.random().toString(36).substr(2, 9)`), supplied externally since the
source generates it nondeterministically.  Returns the fragments emitted
for this entry (one fragment, or none in the unreachable relation case
with fewer than two path parts). -/
def applyCondition (o : Options) (aliasStr field : Str) (value : JSVal)
    (rnd : Str) : List SQLFrag :=
  let paramName := replaceDots field ++ "_".data ++ rnd
  match value with
  | .notOf notValue =>
    if containsSub o.RELATION_DELIMITER field then
      let parts := jsSplitL o.RELATION_DELIMITER field
      if parts.length = 2 then
        let relationAlias := aliasStr ++ "__".data ++ parts.getD 0 []
        let col := relationAlias ++ ".".data ++ parts.getD 1 []
        if notValue = isNullMarker then [.isNotNullF col]
        else [.neF col paramName notValue]
      else if 2 < parts.length then
        let parentAlias := aliasStr ++ "__".data ++ parts.getD 0 []
        let nestedAlias := parentAlias ++ "__".data ++ parts.getD 1 []
        let col := nestedAlias ++ ".".data ++ parts.getD 2 []
        if notValue = isNullMarker then [.isNotNullF col]
        else [.neF col paramName notValue]
      else []
    else
      let col := aliasStr ++ ".".data ++ field
      if notValue = isNullMarker then [.isNotNullF col]
      else [.neF col paramName notValue]
  | _ =>
    if containsSub o.RELATION_DELIMITER field then
      let parts := jsSplitL o.RELATION_DELIMITER field
      if parts.length = 2 then
        let relationAlias := aliasStr ++ "__".data ++ parts.getD 0 []
        let subField := parts.getD 1 []
        if value = isNullMarker then [.isNullF (relationAlias ++ ".".data ++ subField)]
        else if typeofObject value then [buildWhereClause relationAlias subField value paramName]
        else [.eqF (relationAlias ++ ".".data ++ subField) paramName value]
      else if 2 < parts.length then
        let parentAlias := aliasStr ++ "__".data ++ parts.getD 0 []
        let nestedAlias := parentAlias ++ "__".data ++ parts.getD 1 []
        let nestedField := parts.getD 2 []
        if value = isNullMarker then [.isNullF (nestedAlias ++ ".".data ++ nestedField)]
        else if typeofObject value then [buildWhereClause nestedAlias nestedField value paramName]
        else [.eqF (nestedAlias ++ ".".data ++ nestedField) paramName value]
      else []
    else
      if value = isNullMarker then [.isNullF (aliasStr ++ ".".data ++ field)]
      else if typeofObject value then [buildWhereClause aliasStr field value paramName]
      else [.eqF (aliasStr ++ ".".data ++ field) paramName value]

/-- `WhereBuilder.applyWhereConditions`: emit the fragments for every
entry of one AND-group in order.  The first fragment corresponds to the
`where` call, the following ones to `andWhere` calls; `rnd i` supplies the
random parameter-name suffix of the `i`-th entry. -/
def applyWhereConditions (o : Options) (aliasStr : Str) (conditions : AndGroup)
    (rnd : Nat → Str) : List SQLFrag :=
  (conditions.enum).flatMap (fun p => applyCondition o aliasStr p.2.1 p.2.2 (rnd p.1))

/-- The mutable TypeORM `SelectQueryBuilder` collaborator, modelled as the
record of everything `buildAdvanced` pushes into it.  `selects` holds
`(column reference, optional column alias)` pairs in call order (the
`select` method replaces the list, `addSelect` appends); `joins` holds
`(isInner, property path, join alias)` in call order; `wheres` holds the
bracketed predicate groups (`where` replaces, `orWhere` appends, the flag
marking OR-appended groups); `orders` models `orderBy`, which in TypeORM
replaces any previous ordering. -/
structure QBState where
  selects : List (Str × Option Str) := []
  joins : List (Bool × Str × Str) := []
  wheres : List (Bool × List SQLFrag) := []
  orders : List (Str × Str × Option Str) := []
  takeVal : Option JSNumber := none
  skipVal : Option JSNumber := none
  deriving Repr, DecidableEq

/-- `queryBuilder.select(col)`: replaces the selection. -/
def qbSelect (st : QBState) (col : Str) : QBState :=
  { st with selects := [(col, none)] }

/-- `queryBuilder.addSelect(col[, alias])`: appends to the selection. -/
def qbAddSelect (st : QBState) (col : Str) (al : Option Str) : QBState :=
  { st with selects := st.selects ++ [(col, al)] }

/-- `queryBuilder.leftJoin(path, alias)`. -/
def qbLeftJoin (st : QBState) (path al : Str) : QBState :=
  { st with joins := st.joins ++ [(false, path, al)] }

/-- `queryBuilder.innerJoin(path, alias)`. -/
def qbInnerJoin (st : QBState) (path al : Str) : QBState :=
  { st with joins := st.joins ++ [(true, path, al)] }

/-- `queryBuilder.where(new Brackets(...))`: replaces the where list. -/
def qbWhere (st : QBState) (g : List SQLFrag) : QBState :=
  { st with wheres := [(false, g)] }

/-- `queryBuilder.orWhere(new Brackets(...))`: appends an OR group. -/
def qbOrWhere (st : QBState) (g : List SQLFrag) : QBState :=
  { st with wheres := st.wheres ++ [(true, g)] }

/-- `queryBuilder.orderBy(col, dir[, nulls])`: replaces the ordering. -/
def qbOrderBy (st : QBState) (col dir : Str) (nulls : Option Str) : QBState :=
  { st with orders := [(col, dir, nulls)] }

/-- `queryBuilder.take(n)`. -/
def qbTake (st : QBState) (n : JSNumber) : QBState :=
  { st with takeVal := some n }

/-- `queryBuilder.skip(n)`. -/
def qbSkip (st : QBState) (n : JSNumber) : QBState :=
  { st with skipVal := some n }

/-- `getEntityColumns` from `src/utils.ts`: the hard-coded per-entity
column lists, defaulting to `['id']` for an unknown entity name. -/
def getEntityColumns (entityName : Str) : List Str :=
  if entityName = "status".data then
    ["id".data, "name".data, "color".data, "order".data, "categoryId".data,
     "spaceId".data, "fileId".data, "folderId".data, "deletedAt".data,
     "createdAt".data, "updatedAt".data, "clickupId".data]
  else if entityName = "owner".data then
    ["id".data, "jobTitle".data, "centralId".data, "email".data,
     "firstName".data, "lastName".data, "fullName".data, "username".data,
     "avatar".data, "birthDate".data, "lastActive".data, "isInvited".data,
     "deletedAt".data, "createdAt".data, "updatedAt".data]
  else if entityName = "subtasks".data then
    ["statusCount".data, "priorityCount".data, "assignedCount".data,
     "markdownDescription".data, "subtaskCount".data, "taskPath".data,
     "clickupUserEmail".data, "clickupParentId".data, "id".data, "name".data,
     "description".data, "estimation".data, "order".data, "priority".data,
     "startDate".data, "dueDate".data, "parentId".data, "statusId".data,
     "fileId".data, "ownerId".data, "assigned_to".data, "dependencies".data,
     "deletedAt".data, "createdAt".data, "updatedAt".data, "importId".data,
     "clickupId".data]
  else if entityName = "category".data then
    ["id".data, "name".data, "color".data, "order".data, "deletedAt".data,
     "createdAt".data, "updatedAt".data]
  else if entityName = "tags".data then
    ["id".data, "name".data, "color".data, "deletedAt".data, "createdAt".data,
     "updatedAt".data]
  else if entityName = "file".data then
    ["id".data, "name".data, "size".data, "type".data, "url".data,
     "deletedAt".data, "createdAt".data, "updatedAt".data]
  else if entityName = "timers".data then
    ["id".data, "start".data, "end".data, "duration".data, "deletedAt".data,
     "createdAt".data, "updatedAt".data]
  else if entityName = "attachments".data then
    ["id".data, "name".data, "size".data, "type".data, "url".data,
     "deletedAt".data, "createdAt".data, "updatedAt".data]
  else if entityName = "comments".data then
    ["id".data, "text".data, "deletedAt".data, "createdAt".data, "updatedAt".data]
  else if entityName = "notifications".data then
    ["id".data, "type".data, "deletedAt".data, "createdAt".data, "updatedAt".data]
  else if entityName = "customFieldsValues".data then
    ["id".data, "value".data, "deletedAt".data, "createdAt".data, "updatedAt".data]
  else ["id".data]

/-- The hard-coded root-table column list added for a root `*` wildcard
(`src/builder.ts`, lines 218-245). -/
def rootWildcardFields : List Str :=
  ["statusCount".data, "priorityCount".data, "assignedCount".data,
   "markdownDescription".data, "subtaskCount".data, "taskPath".data,
   "clickupUserEmail".data, "clickupParentId".data, "name".data,
   "description".data, "estimation".data, "order".data, "priority".data,
   "startDate".data, "dueDate".data, "parentId".data, "statusId".data,
   "fileId".data, "ownerId".data, "assigned_to".data, "dependencies".data,
   "deletedAt".data, "createdAt".data, "updatedAt".data, "importId".data,
   "clickupId".data]

/-- The `nestedRelations` map: parent relation name to its set of child
relation names, insertion-ordered. -/
abbrev NestedMap := List (Str × List Str)

/-- `nestedRelations.get(parent).add(child)` with creation of a missing
entry. -/
def nestedAdd (m : NestedMap) (parent child : Str) : NestedMap :=
  if m.any (fun p => p.1 = parent) then
    m.map (fun p => if p.1 = parent then (p.1, addToSet p.2 child) else p)
  else m ++ [(parent, addToSet [] child)]

/-- Lookup in the `nestedRelations` map. -/
def nestedGet (m : NestedMap) (parent : Str) : Option (List Str) :=
  (m.find? (fun p => p.1 = parent)).map (fun p => p.2)

/-- `identifyNestedRelations` (`src/builder.ts`, lines 569-605): record
relation wildcards (`relation.*`) and nested parent/child pairs from the
select string. -/
def identifyNestedRelations (o : Options) (selectString : Str)
    (acc : List Str × NestedMap) : List Str × NestedMap :=
  (jsSplitL o.VALUE_DELIMITER selectString).foldl (fun acc field =>
    if containsSub o.RELATION_DELIMITER field then
      let parts := jsSplitL o.RELATION_DELIMITER field
      if parts.length = 2 then
        if parts.getD 1 [] = "*".data then (addToSet acc.1 (parts.getD 0 []), acc.2)
        else acc
      else if 2 < parts.length then
        let parentRelation := parts.getD 0 []
        let childRelation := parts.getD 1 []
        let nestedField := List.intercalate o.RELATION_DELIMITER (parts.drop 2)
        let nested := nestedAdd acc.2 parentRelation childRelation
        if nestedField = "*".data then
          (addToSet acc.1 (parentRelation ++ o.RELATION_DELIMITER ++ childRelation), nested)
        else (acc.1, nested)
      else acc
    else acc) acc

/-- `identifyNestedRelationsInFilter` (`src/builder.ts`, lines 608-650):
record nested parent/child pairs appearing in filter condition fields. -/
def identifyNestedRelationsInFilter (o : Options) (filterString : Str)
    (nested0 : NestedMap) : NestedMap :=
  (jsSplitL (o.LOOKUP_DELIMITER ++ o.OR ++ o.LOOKUP_DELIMITER) filterString).foldl
    (fun nested group =>
      (jsSplitL (o.LOOKUP_DELIMITER ++ o.AND ++ o.LOOKUP_DELIMITER) group).foldl
        (fun nested condition =>
          if condition.all isWs then nested
          else
            let parts := jsSplitL o.LOOKUP_DELIMITER condition
            if parts.length < 2 then nested
            else
              let field := parts.getD 0 []
              if field = [] then nested
              else if containsSub o.RELATION_DELIMITER field then
                let fieldParts := jsSplitL o.RELATION_DELIMITER field
                if 2 < fieldParts.length then
                  nestedAdd nested (fieldParts.getD 0 []) (fieldParts.getD 1 [])
                else nested
              else nested) nested) nested0

/-- The mutable context of `buildAdvanced`'s select/join sections: the
query builder, the `joinedRelations` set, the `selectedColumns` set and
the `sortFields` set. -/
structure SelCtx where
  st : QBState
  joined : List Str
  cols : List Str
  sortFields : List Str
  deriving Repr, DecidableEq

/-- Guarded `addSelect`: add the column reference only when it is not yet
in the `selectedColumns` set, recording it there. -/
def guardedAddSelect (st : QBState) (cols : List Str) (colRef : Str)
    (al : Option Str) : QBState × List Str :=
  if colRef ∈ cols then (st, cols)
  else (qbAddSelect st colRef al, cols ++ [colRef])

/-- One iteration of the `selectFields.forEach` loop of `buildAdvanced`
(`src/builder.ts`, lines 258-364): join and select relation fields (with
wildcard expansion through `getEntityColumns`), select plain root fields
unless covered by the root wildcard, and remove explicitly selected root
fields from the pending sort-field set. -/
def processSelectField (o : Options) (aliasStr : Str) (wildcards : List Str)
    (hasRoot : Bool) (ctx : SelCtx) (field : Str) : SelCtx :=
  if field = [] then ctx
  else if field = "*".data then ctx
  else if containsSub o.RELATION_DELIMITER field then
    let parts := jsSplitL o.RELATION_DELIMITER field
    if parts.length = 2 then
      let relation := parts.getD 0 []
      let subField := parts.getD 1 []
      if relation = [] then ctx
      else
        let relationAlias := aliasStr ++ "__".data ++ relation
        let ctx :=
          if relation ∈ ctx.joined then ctx
          else if relation ∈ wildcards then
            let st := qbLeftJoin ctx.st (aliasStr ++ ".".data ++ relation) relationAlias
            let p := (getEntityColumns relation).foldl
              (fun (p : QBState × List Str) column =>
                guardedAddSelect p.1 p.2 (relationAlias ++ ".".data ++ column)
                  (some (relationAlias ++ "_".data ++ column))) (st, ctx.cols)
            { ctx with st := p.1, cols := p.2, joined := ctx.joined ++ [relation] }
          else
            let st := qbLeftJoin ctx.st (aliasStr ++ ".".data ++ relation) relationAlias
            { ctx with st := st, joined := ctx.joined ++ [relation] }
        if relation ∉ wildcards ∧ subField ≠ [] ∧ subField ≠ "*".data then
          let p := guardedAddSelect ctx.st ctx.cols
            (relationAlias ++ ".".data ++ subField)
            (some (relationAlias ++ "_".data ++ subField))
          { ctx with st := p.1, cols := p.2 }
        else ctx
    else if 2 < parts.length then
      let parentRelation := parts.getD 0 []
      let childRelation := parts.getD 1 []
      if parentRelation = [] ∨ childRelation = [] then ctx
      else
        let nestedField := List.intercalate o.RELATION_DELIMITER (parts.drop 2)
        let parentAlias := aliasStr ++ "__".data ++ parentRelation
        let nestedAlias := parentAlias ++ "__".data ++ childRelation
        let ctx :=
          if parentRelation ∈ ctx.joined then ctx
          else
            let st := qbLeftJoin ctx.st (aliasStr ++ ".".data ++ parentRelation) parentAlias
            { ctx with st := st, joined := ctx.joined ++ [parentRelation] }
        let nestedRelationKey := parentAlias ++ ".".data ++ childRelation
        let ctx :=
          if nestedRelationKey ∈ ctx.joined then ctx
          else
            let st := qbLeftJoin ctx.st (parentAlias ++ ".".data ++ childRelation) nestedAlias
            { ctx with st := st, joined := ctx.joined ++ [nestedRelationKey] }
        let nestedRelationFullKey := parentRelation ++ ".".data ++ childRelation
        if nestedField = "*".data ∨ nestedRelationFullKey ∈ wildcards then
          let p := (getEntityColumns childRelation).foldl
            (fun (p : QBState × List Str) column =>
              guardedAddSelect p.1 p.2 (nestedAlias ++ ".".data ++ column)
                (some (nestedAlias ++ "_".data ++ column))) (ctx.st, ctx.cols)
          { ctx with st := p.1, cols := p.2 }
        else if nestedField ≠ [] then
          let p := guardedAddSelect ctx.st ctx.cols
            (nestedAlias ++ ".".data ++ nestedField)
            (some (nestedAlias ++ "_".data ++ nestedField))
          { ctx with st := p.1, cols := p.2 }
        else ctx
    else ctx
  else if field ≠ "id".data ∧ ¬ hasRoot then
    let p := guardedAddSelect ctx.st ctx.cols (aliasStr ++ ".".data ++ field) none
    let sf := ctx.sortFields.filter (fun f => f ≠ field)
    { ctx with st := p.1, cols := p.2, sortFields := sf }
  else ctx

/-- One iteration of the `sortFields.forEach` loop of `buildAdvanced`
(`src/builder.ts`, lines 369-399): join and select sort fields that were
not explicitly selected. -/
def processSortField (o : Options) (aliasStr : Str) (ctx : SelCtx)
    (field : Str) : SelCtx :=
  if field = [] then ctx
  else if containsSub o.RELATION_DELIMITER field then
    let parts := jsSplitL o.RELATION_DELIMITER field
    if parts.length < 2 then ctx
    else
      let relation := parts.getD 0 []
      let subField := parts.getD 1 []
      if relation = [] ∨ subField = [] then ctx
      else
        let relationAlias := aliasStr ++ "__".data ++ relation
        let ctx :=
          if relation ∈ ctx.joined then ctx
          else
            let st := qbLeftJoin ctx.st (aliasStr ++ ".".data ++ relation) relationAlias
            { ctx with st := st, joined := ctx.joined ++ [relation] }
        let p := guardedAddSelect ctx.st ctx.cols
          (relationAlias ++ ".".data ++ subField) none
        { ctx with st := p.1, cols := p.2 }
  else
    let p := guardedAddSelect ctx.st ctx.cols (aliasStr ++ ".".data ++ field) none
    { ctx with st := p.1, cols := p.2 }

/-- One iteration of the `joins.forEach` loop of `buildAdvanced`
(`src/builder.ts`, lines 409-483): join relations requested through the
`join` parameter unless already joined, expanding wildcard selections and
pending nested relations. -/
def processJoin (_o : Options) (aliasStr : Str) (wildcards : List Str)
    (nested : NestedMap) (selectRaw : Option Str) (ctx : SelCtx)
    (join : Str) : SelCtx :=
  if join = [] then ctx
  else
    let parts := jsSplitL (":".data) join
    let relation := parts.getD 0 []
    let joinType := match parts.get? 1 with
      | some t => t
      | none => "left".data
    if relation = [] then ctx
    else if relation ∈ ctx.joined then ctx
    else
      let relationAlias := aliasStr ++ "__".data ++ relation
      let isInSelect := match selectRaw with
        | some s => containsSub (relation ++ ".".data) s
        | none => false
      let hasWildcard := match selectRaw with
        | some s => containsSub (relation ++ ".*".data) s
        | none => false
      let ctx :=
        if isInSelect = false then
          if toLower joinType = "inner".data then
            { ctx with st := qbInnerJoin ctx.st (aliasStr ++ ".".data ++ relation) relationAlias }
          else
            { ctx with st := qbLeftJoin ctx.st (aliasStr ++ ".".data ++ relation) relationAlias }
        else if hasWildcard = true ∧ relation ∉ wildcards then
          let st :=
            if toLower joinType = "inner".data then
              qbInnerJoin ctx.st (aliasStr ++ ".".data ++ relation) relationAlias
            else
              qbLeftJoin ctx.st (aliasStr ++ ".".data ++ relation) relationAlias
          let p := (getEntityColumns relation).foldl
            (fun (p : QBState × List Str) column =>
              guardedAddSelect p.1 p.2 (relationAlias ++ ".".data ++ column)
                (some (relationAlias ++ "_".data ++ column))) (st, ctx.cols)
          { ctx with st := p.1, cols := p.2 }
        else ctx
      let ctx := { ctx with joined := addToSet ctx.joined relation }
      match nestedGet nested relation with
      | none => ctx
      | some childRelations =>
        childRelations.foldl (fun ctx childRelation =>
          if childRelation = [] then ctx
          else
            let nestedAlias := relationAlias ++ "__".data ++ childRelation
            let nestedRelationKey := relation ++ ".".data ++ childRelation
            if nestedRelationKey ∈ ctx.joined then ctx
            else
              let ctx :=
                let st := qbLeftJoin ctx.st (relationAlias ++ ".".data ++ childRelation) nestedAlias
                { ctx with st := st, joined := ctx.joined ++ [nestedRelationKey] }
              if nestedRelationKey ∈ wildcards then
                let p := (getEntityColumns childRelation).foldl
                  (fun (p : QBState × List Str) column =>
                    guardedAddSelect p.1 p.2 (nestedAlias ++ ".".data ++ column)
                      (some (nestedAlias ++ "_".data ++ column))) (ctx.st, ctx.cols)
                { ctx with st := p.1, cols := p.2 }
              else ctx) ctx

/-- The select section of `buildAdvanced` (`src/builder.ts`, lines
206-404): always select `{alias}.id` first, expand a root wildcard through
the fixed root column list, process each select field, and finally add the
pending sort fields. -/
def selectStage (o : Options) (aliasStr : Str) (q : Query)
    (wildcards : List Str) (sortFields0 : List Str) (qb0 : QBState) : SelCtx :=
  match q.select with
  | some s =>
    if s = [] then { st := qbSelect qb0 (aliasStr ++ ".*".data), joined := [], cols := [], sortFields := sortFields0 }
    else
      let selectFields := jsSplitL o.VALUE_DELIMITER s
      let hasRoot := "*".data ∈ selectFields
      let st := qbSelect qb0 (aliasStr ++ ".id".data)
      let cols := [aliasStr ++ ".id".data]
      let stcolsf :=
        if hasRoot then
          let p := rootWildcardFields.foldl
            (fun (p : QBState × List Str) f =>
              guardedAddSelect p.1 p.2 (aliasStr ++ ".".data ++ f) none) (st, cols)
          (p.1, p.2, ([] : List Str))
        else (st, cols, sortFields0)
      let ctx := selectFields.foldl (processSelectField o aliasStr wildcards hasRoot)
        { st := stcolsf.1, joined := [], cols := stcolsf.2.1, sortFields := stcolsf.2.2 }
      if ¬ hasRoot then
        ctx.sortFields.foldl (processSortField o aliasStr) ctx
      else ctx
  | none => { st := qbSelect qb0 (aliasStr ++ ".*".data), joined := [], cols := [], sortFields := sortFields0 }

/-- The join section of `buildAdvanced` (`src/builder.ts`, lines 407-484). -/
def joinStage (o : Options) (aliasStr : Str) (q : Query)
    (wildcards : List Str) (nested : NestedMap) (ctx : SelCtx) : SelCtx :=
  match q.join with
  | some s =>
    if s = [] then ctx
    else (jsSplitL o.VALUE_DELIMITER s).foldl
      (processJoin o aliasStr wildcards nested q.select) ctx
  | none => ctx

/-- The where section of `buildAdvanced` (`src/builder.ts`, lines
487-506): parse the filter, apply the first AND-group with `where` and the
following groups with `orWhere`, each in its own bracket.  `rnd i j` is
the random parameter-name suffix for condition `j` of group `i`. -/
def filterStage (o : Options) (aliasStr : Str) (q : Query)
    (rnd : Nat → Nat → Str) (st : QBState) : Except Unit QBState :=
  match q.filter with
  | some f =>
    if f = [] then .ok st
    else do
      let whereConditions ← parseFilterString o f
      match whereConditions with
      | [] => return st
      | c0 :: rest =>
        let st := qbWhere st (applyWhereConditions o aliasStr c0 (rnd 0))
        return rest.enum.foldl (fun st p =>
          qbOrWhere st (applyWhereConditions o aliasStr p.2 (rnd (p.1 + 1)))) st
  | none => .ok st

/-- The sort section of `buildAdvanced` (`src/builder.ts`, lines 509-548):
relation-qualified sort fields order by the generated column alias, root
fields by the qualified column. -/
def sortStage (o : Options) (aliasStr : Str) (q : Query) (st : QBState) : QBState :=
  match q.sort with
  | some s =>
    if s = [] then st
    else (createOrderArray o s).foldl (fun st p =>
      let field := p.1
      let direction := p.2.1
      let nulls := p.2.2
      if field = [] then st
      else if containsSub o.RELATION_DELIMITER field then
        let parts := jsSplitL o.RELATION_DELIMITER field
        if parts.length < 2 then st
        else
          let relation := parts.getD 0 []
          let subField := parts.getD 1 []
          if relation = [] ∨ subField = [] then st
          else qbOrderBy st (aliasStr ++ "__".data ++ relation ++ "_".data ++ subField)
            direction nulls
      else qbOrderBy st (aliasStr ++ ".".data ++ field) direction nulls) st
  | none => st

/-- The pagination section of `buildAdvanced` (`src/builder.ts`, lines
551-563): `take` from the limit or the default limit, then `skip`/`take`
from the page. -/
def paginationStage (o : Options) (q : Query) (st : QBState) : QBState :=
  let st :=
    match q.limit with
    | some l =>
      if l ≠ [] then qbTake st (jsParseInt l)
      else if o.DEFAULT_LIMIT ≠ [] then qbTake st (jsParseInt o.DEFAULT_LIMIT) else st
    | none =>
      if o.DEFAULT_LIMIT ≠ [] then qbTake st (jsParseInt o.DEFAULT_LIMIT) else st
  match q.page with
  | some p =>
    if p ≠ [] then
      let limit : JSNumber :=
        match q.limit with
        | some l =>
          if l ≠ [] then jsParseInt l
          else if o.DEFAULT_LIMIT ≠ [] then jsParseInt o.DEFAULT_LIMIT else .num 25
        | none =>
          if o.DEFAULT_LIMIT ≠ [] then jsParseInt o.DEFAULT_LIMIT else .num 25
      qbTake (qbSkip st (limit.mul ((jsParseInt p).sub (.num 1)))) limit
    else st
  | none => st

/-- The pending sort-field set collected at the top of `buildAdvanced`
(`src/builder.ts`, lines 180-192). -/
def collectSortFields (o : Options) (q : Query) : List Str :=
  match q.sort with
  | some s =>
    if s = [] then []
    else (jsSplitL o.CONDITION_DELIMITER s).foldl (fun acc condition =>
      if condition ≠ [] then
        let field := (jsSplitL o.VALUE_DELIMITER condition).getD 0 []
        if field ≠ [] then addToSet acc field else acc
      else acc) []
  | none => []

/-- `QueryBuilder.buildAdvanced` (`src/builder.ts`, lines 162-566),
assembled from its sections in source order.  `qb0` is the caller's query
builder; `rnd i j` supplies the random parameter-name suffix of condition
`j` in filter group `i`. -/
def buildAdvanced (o : Options) (q : Query) (aliasStr : Str) (qb0 : QBState)
    (rnd : Nat → Nat → Str) : Except Unit QBState := do
  let sortFields := collectSortFields o q
  let wn :=
    match q.select with
    | some s => if s = [] then ([], []) else identifyNestedRelations o s ([], [])
    | none => (([] : List Str), ([] : NestedMap))
  let nested :=
    match q.filter with
    | some f => if f = [] then wn.2 else identifyNestedRelationsInFilter o f wn.2
    | none => wn.2
  let ctx := selectStage o aliasStr q wn.1 sortFields qb0
  let ctx := joinStage o aliasStr q wn.1 nested ctx
  let st ← filterStage o aliasStr q rnd ctx.st
  let st := sortStage o aliasStr q st
  return paginationStage o q st

theorem isPrefixOf_iff_exists {l₁ l₂ : Str} :
    l₁.isPrefixOf l₂ = true ↔ ∃ t, l₂ = l₁ ++ t := by
  induction l₁ generalizing l₂ with
  | nil => simp [List.isPrefixOf]
  | cons a as ih =>
    cases l₂ with
    | nil => simp [List.isPrefixOf]
    | cons b bs =>
      simp only [List.isPrefixOf, Bool.and_eq_true, beq_iff_eq, ih, List.cons_append,
        List.cons.injEq]
      constructor
      · rintro ⟨hab, t, ht⟩
        exact ⟨t, hab.symm, ht⟩
      · rintro ⟨t, hab, ht⟩
        exact ⟨hab.symm, t, ht⟩

theorem jsSplitAux_ne_nil (sep : Str) (fuel : Nat) (s : Str) :
    jsSplitAux sep fuel s ≠ [] := by
  match fuel, s with
  | 0, s => simp [jsSplitAux]
  | fuel + 1, [] => simp [jsSplitAux]
  | fuel + 1, c :: rest =>
    simp only [jsSplitAux]
    split
    · simp
    · split <;> simp

theorem jsSplitAux_fuel (sep : Str) :
    ∀ (fuel : Nat) (s : Str) (fuel' : Nat), s.length < fuel → s.length < fuel' →
      jsSplitAux sep fuel s = jsSplitAux sep fuel' s := by
  intro fuel
  induction fuel with
  | zero => intro s fuel' h _; exact absurd h (Nat.not_lt_zero _)
  | succ n ih =>
    intro s fuel' hs hs'
    cases s with
    | nil =>
      cases fuel' with
      | zero => exact absurd hs' (Nat.not_lt_zero _)
      | succ m => rfl
    | cons c rest =>
      cases fuel' with
      | zero => exact absurd hs' (Nat.not_lt_zero _)
      | succ m =>
        simp only [jsSplitAux]
        have hrn : rest.length < n := by
          simp only [List.length_cons] at hs; omega
        have hrm : rest.length < m := by
          simp only [List.length_cons] at hs'; omega
        split
        · have hd : (rest.drop (sep.length - 1)).length < n := by
            have := List.length_drop (sep.length - 1) rest
            omega
          have hd' : (rest.drop (sep.length - 1)).length < m := by
            have := List.length_drop (sep.length - 1) rest
            omega
          rw [ih _ m hd hd']
        · rw [ih rest m hrn hrm]

theorem jsSplitL_of_no_sep {sep s : Str} (h : ¬ sep <:+: s) :
    jsSplitL sep s = [s] := by
  suffices haux : ∀ (fuel : Nat), s.length < fuel → jsSplitAux sep fuel s = [s] by
    exact haux _ (Nat.lt_succ_self _)
  induction s with
  | nil =>
    intro fuel hf
    cases fuel with
    | zero => exact absurd hf (Nat.not_lt_zero _)
    | succ m => rfl
  | cons c rest ih =>
    intro fuel hf
    cases fuel with
    | zero => exact absurd hf (Nat.not_lt_zero _)
    | succ m =>
      simp only [jsSplitAux]
      have hnp : ¬ (sep.isPrefixOf (c :: rest) = true ∧ sep ≠ []) := by
        rintro ⟨hp, -⟩
        rcases isPrefixOf_iff_exists.mp hp with ⟨t, ht⟩
        exact h ⟨[], t, by simp [ht]⟩
      rw [if_neg hnp]
      have hrest : ¬ sep <:+: rest := by
        rintro ⟨p, q, hpq⟩
        exact h ⟨c :: p, q, by simp [← hpq]⟩
      have hm : rest.length < m := by
        simp only [List.length_cons] at hf; omega
      rw [ih hrest m hm]

theorem jsSplitL_append_clean {sep f rest : Str} (hsep : sep ≠ [])
    (hf : ∀ c ∈ f, c ∉ sep) :
    jsSplitL sep (f ++ sep ++ rest) = f :: jsSplitL sep rest := by
  suffices haux : ∀ (fuel : Nat), (f ++ sep ++ rest).length < fuel →
      jsSplitAux sep fuel (f ++ sep ++ rest) = f :: jsSplitL sep rest by
    exact haux _ (Nat.lt_succ_self _)
  induction f with
  | nil =>
    intro fuel hfu
    cases fuel with
    | zero => exact absurd hfu (Nat.not_lt_zero _)
    | succ m =>
      cases hsepc : sep with
      | nil => exact absurd hsepc hsep
      | cons a sep' =>
        subst hsepc
        simp only [List.nil_append, List.cons_append, jsSplitAux, List.append_eq]
        rw [if_pos]
        · have hdrop : (List.drop ((a :: sep').length - 1) (sep' ++ rest)) = rest := by
            simp only [List.length_cons, Nat.add_sub_cancel]
            exact List.drop_left sep' rest
          rw [hdrop]
          have hmr : rest.length < m := by
            simp only [List.nil_append, List.cons_append, List.length_cons,
              List.length_append] at hfu
            omega
          rw [jsSplitAux_fuel (a :: sep') m rest (rest.length + 1) hmr (Nat.lt_succ_self _)]
          rfl
        · constructor
          · exact isPrefixOf_iff_exists.mpr ⟨rest, by simp⟩
          · simp
  | cons c f' ih =>
    intro fuel hfu
    cases fuel with
    | zero => exact absurd hfu (Nat.not_lt_zero _)
    | succ m =>
      simp only [List.cons_append, jsSplitAux, List.append_eq]
      have hnp : ¬ (sep.isPrefixOf (c :: (f' ++ sep ++ rest)) = true ∧ sep ≠ []) := by
        rintro ⟨hp, -⟩
        rcases isPrefixOf_iff_exists.mp hp with ⟨t, ht⟩
        cases hsepc : sep with
        | nil => exact hsep hsepc
        | cons a sep' =>
          subst hsepc
          simp only [List.cons_append, List.cons.injEq] at ht
          exact hf c (List.mem_cons_self c f') (ht.1 ▸ List.mem_cons_self a sep')
      rw [if_neg hnp]
      have hm : (f' ++ sep ++ rest).length < m := by
        simp only [List.cons_append, List.length_cons] at hfu; omega
      rw [ih (fun x hx => hf x (List.mem_cons_of_mem c hx)) m hm]

theorem containsSub_iff {pat s : Str} :
    containsSub pat s = true ↔ ∃ p q, s = p ++ pat ++ q := by
  simp only [containsSub, List.any_eq_true, List.mem_range]
  constructor
  · rintro ⟨i, hi, hp⟩
    rcases isPrefixOf_iff_exists.mp hp with ⟨t, ht⟩
    exact ⟨s.take i, t, by rw [List.append_assoc, ← ht, List.take_append_drop]⟩
  · rintro ⟨p, q, hpq⟩
    refine ⟨p.length, ?_, ?_⟩
    · subst hpq
      simp only [List.length_append]
      omega
    · subst hpq
      rw [List.append_assoc, List.drop_left]
      exact isPrefixOf_iff_exists.mpr ⟨q, rfl⟩

theorem singleton_infix_iff {a : Char} {s : Str} : [a] <:+: s ↔ a ∈ s := by
  constructor
  · rintro ⟨p, q, hpq⟩
    subst hpq
    simp
  · intro h
    rcases List.append_of_mem h with ⟨p, q, hpq⟩
    exact ⟨p, q, by simp [hpq]⟩

theorem containsSub_eq_false_of_not_mem {a : Char} {s : Str} (h : a ∉ s) :
    containsSub [a] s = false := by
  rw [Bool.eq_false_iff]
  intro hc
  rcases containsSub_iff.mp hc with ⟨p, q, hpq⟩
  exact h (by subst hpq; simp)

theorem dropWhile_shape (p : Char → Bool) :
    ∀ (l : Str), l.dropWhile p = [] ∨
      ∃ c rest, l.dropWhile p = c :: rest ∧ p c = false := by
  intro l
  induction l with
  | nil => left; rfl
  | cons c rest ih =>
    by_cases hc : p c
    · simpa [List.dropWhile, hc] using ih
    · right
      exact ⟨c, rest, by simp [List.dropWhile, hc], by simpa using hc⟩

theorem jsSplitL_singleton_mem_length {a : Char} {s : Str} (h : a ∈ s) :
    2 ≤ (jsSplitL [a] s).length := by
  rcases dropWhile_shape (fun c => c ≠ a) s with hnil | ⟨c, rest, hcr, hpc⟩
  · rw [List.dropWhile_eq_nil_iff] at hnil
    have := hnil a h
    simp at this
  · have hca : c = a := by simpa using hpc
    have hdec : s = s.takeWhile (fun c => c ≠ a) ++ [a] ++ rest := by
      conv_lhs => rw [← List.takeWhile_append_dropWhile (p := fun c => decide (c ≠ a)) (l := s)]
      rw [hcr, hca]
      simp
    have hclean : ∀ x ∈ s.takeWhile (fun c => c ≠ a), x ∉ [a] := by
      intro x hx
      have := List.mem_takeWhile_imp hx
      simpa using this
    rw [hdec, jsSplitL_append_clean (by simp) hclean]
    simp only [List.length_cons]
    have hne := jsSplitAux_ne_nil [a] (rest.length + 1) rest
    have hpos : 0 < (jsSplitL [a] rest).length := List.length_pos.mpr hne
    omega

theorem all_isWs_false_of_mem {s : Str} {c : Char} (hc : c ∈ s)
    (hw : isWs c = false) : s.all isWs = false := by
  rw [Bool.eq_false_iff]
  intro hall
  rw [List.all_eq_true] at hall
  rw [hall c hc] at hw
  exact Bool.true_eq_false.mp hw

theorem procCondition_three {s f op v : Str} {g : AndGroup}
    (hws : s.all isWs = false)
    (hsplit : jsSplitL ("||".data) s = [f, op, v])
    (hf : f ≠ []) (hop : op ≠ []) :
    procCondition defaultOptions g s = condStep defaultOptions g f op (some v) := by
  unfold procCondition
  have hld : defaultOptions.LOOKUP_DELIMITER = "||".data := rfl
  rw [hld, hsplit, hws]
  simp [hf, hop]

theorem QB.procCondition_threeQ {s f op v : Str} {g : AndGroup}
    (hws : s.all isWs = false)
    (hsplit : jsSplitL ("||".data) s = [f, op, v])
    (hf : f ≠ []) (hop : op ≠ []) :
    QB.procCondition defaultOptions g s = QB.condStep defaultOptions g f op (some v) := by
  unfold QB.procCondition
  have hld : defaultOptions.LOOKUP_DELIMITER = "||".data := rfl
  rw [hld, hsplit, hws]
  simp [hf, hop]

theorem parse_single3 {s f op v : Str}
    (hws : s.all isWs = false)
    (hOr : jsSplitL ("||$or||".data) s = [s])
    (hAnd : jsSplitL ("||$and||".data) s = [s])
    (hsplit : jsSplitL ("||".data) s = [f, op, v])
    (hf : f ≠ []) (hop : op ≠ []) :
    parseFilterString defaultOptions s =
      (condStep defaultOptions [] f op (some v)).map
        (fun g => if g = [] then [] else [g]) := by
  have hne : s ≠ [] := by
    intro he
    rw [he] at hsplit
    simp [jsSplitL, jsSplitAux] at hsplit
  unfold parseFilterString
  rw [if_neg hne]
  have hOrSep : defaultOptions.LOOKUP_DELIMITER ++ defaultOptions.OR ++
      defaultOptions.LOOKUP_DELIMITER = "||$or||".data := rfl
  have hAndSep : defaultOptions.LOOKUP_DELIMITER ++ defaultOptions.AND ++
      defaultOptions.LOOKUP_DELIMITER = "||$and||".data := rfl
  rw [hOrSep, hOr]
  simp only [procOrGroups]
  rw [hAndSep, hAnd]
  simp only [procConditions]
  rw [procCondition_three hws hsplit hf hop]
  cases hcs : condStep defaultOptions [] f op (some v) with
  | error e => rfl
  | ok g =>
    simp only [procConditions, Except.bind, Except.map, bind, pure]
    by_cases hg : g = []
    · simp [hg, Except.pure]
    · simp [hg, Except.pure]

theorem jsSplitL_bar_single {v : Str} (hv : ∀ c ∈ v, c ≠ '|') :
    jsSplitL ("||".data) v = [v] := by
  apply jsSplitL_of_no_sep
  rintro ⟨p, q, hpq⟩
  have hb : '|' ∈ ("||".data : Str) := by decide
  have hmem : '|' ∈ v := by
    rw [← hpq]
    exact List.mem_append_left _ (List.mem_append_right _ hb)
  exact hv '|' hmem rfl

theorem split3_clean {f op v : Str}
    (hf : ∀ c ∈ f, c ≠ '|') (hop : ∀ c ∈ op, c ≠ '|') (hv : ∀ c ∈ v, c ≠ '|') :
    jsSplitL ("||".data) (f ++ "||".data ++ op ++ "||".data ++ v) = [f, op, v] := by
  have hsep : ("||".data : Str) ≠ [] := by decide
  have hmem : ∀ x : Char, x ∈ ("||".data : Str) → x = '|' := by decide
  have h1 : f ++ "||".data ++ op ++ "||".data ++ v =
      f ++ "||".data ++ (op ++ "||".data ++ v) := by
    simp [List.append_assoc]
  rw [h1, jsSplitL_append_clean hsep (fun c hc hin => hf c hc (hmem c hin))]
  rw [jsSplitL_append_clean hsep (fun c hc hin => hop c hc (hmem c hin))]
  rw [jsSplitL_bar_single hv]

theorem applyCondition_notOf (aliasStr f : Str) (nv : JSVal) (r : Str) :
    ∃ col, applyCondition defaultOptions aliasStr f (.notOf nv) r =
      if nv = isNullMarker then [.isNotNullF col]
      else [.neF col (replaceDots f ++ "_".data ++ r) nv] := by
  have hrd : defaultOptions.RELATION_DELIMITER = ['.'] := rfl
  unfold applyCondition
  by_cases hrel : containsSub defaultOptions.RELATION_DELIMITER f = true
  · have hdot : ('.' : Char) ∈ f := by
      rcases containsSub_iff.mp (hrd ▸ hrel) with ⟨p, q, hpq⟩
      subst hpq
      simp
    have hlen : 2 ≤ (jsSplitL defaultOptions.RELATION_DELIMITER f).length := by
      rw [hrd]
      exact jsSplitL_singleton_mem_length hdot
    by_cases h2 : (jsSplitL defaultOptions.RELATION_DELIMITER f).length = 2
    · refine ⟨aliasStr ++ "__".data ++ (jsSplitL defaultOptions.RELATION_DELIMITER f).getD 0 []
        ++ ".".data ++ (jsSplitL defaultOptions.RELATION_DELIMITER f).getD 1 [], ?_⟩
      simp only [hrel, if_true, h2, if_pos]
    · have h3 : 2 < (jsSplitL defaultOptions.RELATION_DELIMITER f).length :=
        lt_of_le_of_ne hlen (Ne.symm h2)
      refine ⟨aliasStr ++ "__".data ++ (jsSplitL defaultOptions.RELATION_DELIMITER f).getD 0 []
        ++ "__".data ++ (jsSplitL defaultOptions.RELATION_DELIMITER f).getD 1 []
        ++ ".".data ++ (jsSplitL defaultOptions.RELATION_DELIMITER f).getD 2 [], ?_⟩
      simp only [hrel, if_true, h2, if_false, h3, if_pos]
  · refine ⟨aliasStr ++ ".".data ++ f, ?_⟩
    simp only [Bool.not_eq_true] at hrel
    simp only [hrel]
    by_cases hn : nv = isNullMarker <;> simp [hn]

theorem applyWhereConditions_single (aliasStr f : Str) (x : JSVal) (rnd : Nat → Str) :
    applyWhereConditions defaultOptions aliasStr [(f, x)] rnd =
      applyCondition defaultOptions aliasStr f x (rnd 0) := by
  simp [applyWhereConditions, List.enum]

/-- C1: for every field name `f` and value string `v` (free of the
delimiter character `|` and of the OR/AND keyword sequences), parsing
`f||$ne||v` and parsing `f||!$eq||v` under default options produce the same
where structure (a marked `Not(parsedValue)` under the key `f`), and the
advanced path compiles that structure to the explicit not-equal predicate
`col <> value` — or `col IS NOT NULL` when the operand is the null marker —
uniformly for root, relation-qualified and nested relation field paths. -/
theorem c1_ne_neg_eq_unified (f v aliasStr : Str) (rnd : Nat → Str)
    (hfne : f ≠ [])
    (hf : ∀ c ∈ f, c ≠ '|') (hv : ∀ c ∈ v, c ≠ '|')
    (hOr1 : jsSplitL ("||$or||".data) (f ++ "||$ne||".data ++ v) =
      [f ++ "||$ne||".data ++ v])
    (hAnd1 : jsSplitL ("||$and||".data) (f ++ "||$ne||".data ++ v) =
      [f ++ "||$ne||".data ++ v])
    (hOr2 : jsSplitL ("||$or||".data) (f ++ "||!$eq||".data ++ v) =
      [f ++ "||!$eq||".data ++ v])
    (hAnd2 : jsSplitL ("||$and||".data) (f ++ "||!$eq||".data ++ v) =
      [f ++ "||!$eq||".data ++ v]) :
    parseFilterString defaultOptions (f ++ "||$ne||".data ++ v) =
        parseFilterString defaultOptions (f ++ "||!$eq||".data ++ v) ∧
    parseFilterString defaultOptions (f ++ "||$ne||".data ++ v) =
        .ok [[(f, .notOf (parseDateOrNumber v).toVal)]] ∧
    ∃ col,
      applyWhereConditions defaultOptions aliasStr
          [(f, .notOf (parseDateOrNumber v).toVal)] rnd =
        if (parseDateOrNumber v).toVal = isNullMarker then [SQLFrag.isNotNullF col]
        else [SQLFrag.neF col (replaceDots f ++ "_".data ++ rnd 0)
          (parseDateOrNumber v).toVal] := by
  have hsplit1 : jsSplitL ("||".data) (f ++ "||$ne||".data ++ v) = [f, "$ne".data, v] := by
    have h := @split3_clean f ("$ne".data) v hf (by decide) hv
    have he : f ++ "||".data ++ "$ne".data ++ "||".data ++ v =
        f ++ "||$ne||".data ++ v := by
      simp only [List.append_assoc]
      rfl
    rw [he] at h
    exact h
  have hsplit2 : jsSplitL ("||".data) (f ++ "||!$eq||".data ++ v) = [f, "!$eq".data, v] := by
    have h := @split3_clean f ("!$eq".data) v hf (by decide) hv
    have he : f ++ "||".data ++ "!$eq".data ++ "||".data ++ v =
        f ++ "||!$eq||".data ++ v := by
      simp only [List.append_assoc]
      rfl
    rw [he] at h
    exact h
  have hws1 : (f ++ "||$ne||".data ++ v).all isWs = false :=
    all_isWs_false_of_mem (c := '$')
      (List.mem_append_left _ (List.mem_append_right _ (by decide))) (by decide)
  have hws2 : (f ++ "||!$eq||".data ++ v).all isWs = false :=
    all_isWs_false_of_mem (c := '$')
      (List.mem_append_left _ (List.mem_append_right _ (by decide))) (by decide)
  have p1 := parse_single3 hws1 hOr1 hAnd1 hsplit1 hfne (by decide)
  have p2 := parse_single3 hws2 hOr2 hAnd2 hsplit2 hfne (by decide)
  have cs1 : condStep defaultOptions [] f ("$ne".data) (some v) =
      .ok [(f, .notOf (parseDateOrNumber v).toVal)] := by
    simp [condStep, defaultOptions, pure, Except.pure, bind, Except.bind, setKey,
      parseDateOrNumberU]
  have cs2 : condStep defaultOptions [] f ("!$eq".data) (some v) =
      .ok [(f, .notOf (parseDateOrNumber v).toVal)] := by
    simp [condStep, defaultOptions, pure, Except.pure, bind, Except.bind, setKey,
      parseDateOrNumberU]
  refine ⟨?_, ?_, ?_⟩
  · rw [p1, p2, cs1, cs2]
  · rw [p1, cs1]
    simp [Except.map]
  · rw [applyWhereConditions_single]
    exact applyCondition_notOf aliasStr f ((parseDateOrNumber v).toVal) (rnd 0)

/-- Witness for C1 at `name||$ne||John` / `name||!$eq||John` with root
alias `task`. -/
theorem c1_ne_neg_eq_unified_witness :
    parseFilterString defaultOptions ("name||$ne||John".data) =
        parseFilterString defaultOptions ("name||!$eq||John".data) ∧
    parseFilterString defaultOptions ("name||$ne||John".data) =
        .ok [[("name".data, .notOf (.str ("John".data)))]] ∧
    ∃ col,
      applyWhereConditions defaultOptions ("task".data)
          [("name".data, .notOf (.str ("John".data)))] (fun _ => "r".data) =
        [SQLFrag.neF col ("name_r".data) (.str ("John".data))] := by
  have h := c1_ne_neg_eq_unified ("name".data) ("John".data) ("task".data)
    (fun _ => "r".data) (by decide) (by decide) (by decide) (by decide)
    (by decide) (by decide) (by decide)
  obtain ⟨h1, h2, col, h3⟩ := h
  refine ⟨h1, h2, col, ?_⟩
  rw [if_neg (by decide : ¬ ((parseDateOrNumber ("John".data)).toVal = isNullMarker))] at h3
  have e1 : (parseDateOrNumber ("John".data)).toVal = .str ("John".data) := by decide
  have e2 : replaceDots ("name".data) ++ "_".data ++ "r".data = "name_r".data := by decide
  simp only [e1] at h3
  simpa [e2] using h3

theorem condStep_exact (f : Str) (v : Option Str) (g : AndGroup) :
    condStep defaultOptions g f ("$eq".data) v =
      .ok (setKey g f (parseDateOrNumberU v).toVal) := by
  simp [condStep, createWhereObject, defaultOptions, pure, Except.pure, bind,
    Except.bind, objAssign, setKey]

theorem condStep_gt (f : Str) (v : Option Str) (g : AndGroup) :
    condStep defaultOptions g f ("$gt".data) v =
      .ok (setKey g f (.gtOf (parseDateOrNumberU v))) := by
  simp [condStep, createWhereObject, defaultOptions, pure, Except.pure, bind,
    Except.bind, objAssign, setKey]

theorem condStep_lt (f : Str) (v : Option Str) (g : AndGroup) :
    condStep defaultOptions g f ("$lt".data) v =
      .ok (setKey g f (.ltOf (parseDateOrNumberU v))) := by
  simp [condStep, createWhereObject, defaultOptions, pure, Except.pure, bind,
    Except.bind, objAssign, setKey]

/-- C2 counterexample: under default options the condition delimiter `;`
is not split in filter strings.  `name||$eq||John;age||$gt||25` parses to
the single condition `{name: "John;age"}` (the `;` and the second
condition land inside the value), while the explicit AND spelling
`name||$eq||John||$and||age||$gt||25` parses to two conjoined conditions —
so the two spellings are not equivalent, contradicting the claim. -/
theorem c2_semicolon_not_and_cex :
    parseFilterString defaultOptions ("name||$eq||John;age||$gt||25".data) =
      .ok [[("name".data, .str ("John;age".data))]] ∧
    parseFilterString defaultOptions ("name||$eq||John||$and||age||$gt||25".data) =
      .ok [[("name".data, .str ("John".data)), ("age".data, .gtOf (.num 25))]] ∧
    parseFilterString defaultOptions ("name||$eq||John;age||$gt||25".data) ≠
      parseFilterString defaultOptions ("name||$eq||John||$and||age||$gt||25".data) := by
  refine ⟨by decide, by decide, ?_⟩
  intro h
  rw [show parseFilterString defaultOptions ("name||$eq||John;age||$gt||25".data) =
      .ok [[("name".data, .str ("John;age".data))]] from by decide,
    show parseFilterString defaultOptions ("name||$eq||John||$and||age||$gt||25".data) =
      .ok [[("name".data, .str ("John".data)), ("age".data, .gtOf (.num 25))]] from by decide] at h
  exact absurd h (by decide)

/-- C2 amended: only the explicit `||$and||` keyword sequence conjoins
conditions; a `;` in a filter string is not a condition delimiter and
stays inside the adjacent condition's value, which is resolved as one
equality target. -/
theorem c2_semicolon_stays_in_value (f v rest : Str)
    (hfne : f ≠ [])
    (hf : ∀ c ∈ f, c ≠ '|')
    (hv : ∀ c ∈ v, c ≠ '|') (hrest : ∀ c ∈ rest, c ≠ '|')
    (hOr : jsSplitL ("||$or||".data)
        (f ++ "||$eq||".data ++ (v ++ ";".data ++ rest)) =
      [f ++ "||$eq||".data ++ (v ++ ";".data ++ rest)])
    (hAnd : jsSplitL ("||$and||".data)
        (f ++ "||$eq||".data ++ (v ++ ";".data ++ rest)) =
      [f ++ "||$eq||".data ++ (v ++ ";".data ++ rest)]) :
    parseFilterString defaultOptions (f ++ "||$eq||".data ++ (v ++ ";".data ++ rest)) =
      .ok [[(f, (parseDateOrNumber (v ++ ";".data ++ rest)).toVal)]] := by
  have hv' : ∀ c ∈ v ++ ";".data ++ rest, c ≠ '|' := by
    intro c hc
    rcases List.mem_append.mp hc with hc1 | hc2
    · rcases List.mem_append.mp hc1 with hc3 | hc4
      · exact hv c hc3
      · intro he
        subst he
        exact absurd hc4 (by decide)
    · exact hrest c hc2
  have hsplit : jsSplitL ("||".data) (f ++ "||$eq||".data ++ (v ++ ";".data ++ rest)) =
      [f, "$eq".data, v ++ ";".data ++ rest] := by
    have h := @split3_clean f ("$eq".data) (v ++ ";".data ++ rest) hf (by decide) hv'
    have he : f ++ "||".data ++ "$eq".data ++ "||".data ++ (v ++ ";".data ++ rest) =
        f ++ "||$eq||".data ++ (v ++ ";".data ++ rest) := by
      simp only [List.append_assoc]
      rfl
    rw [he] at h
    exact h
  have hws : (f ++ "||$eq||".data ++ (v ++ ";".data ++ rest)).all isWs = false :=
    all_isWs_false_of_mem (c := '$')
      (List.mem_append_left _ (List.mem_append_right _ (by decide))) (by decide)
  rw [parse_single3 hws hOr hAnd hsplit hfne (by decide), condStep_exact]
  simp [setKey, Except.map, parseDateOrNumberU]

/-- Witness for the amended C2 at `name||$eq||John;x`. -/
theorem c2_semicolon_stays_in_value_witness :
    parseFilterString defaultOptions ("name||$eq||John;x".data) =
      .ok [[("name".data, .str ("John;x".data))]] := by
  have h := c2_semicolon_stays_in_value ("name".data) ("John".data) ("x".data)
    (by decide) (by decide) (by decide) (by decide) (by decide) (by decide)
  exact h

/-- C3 counterexample: two constraints on the same field in one AND-group
are not coalesced into a list — the later one overwrites the earlier one.
`age||$gt||1||$and||age||$lt||5` parses to the single entry
`{age: LessThan(5)}`, and the earlier `MoreThan(1)` constraint appears
nowhere in the result. -/
theorem c3_overwrite_cex :
    parseFilterString defaultOptions ("age||$gt||1||$and||age||$lt||5".data) =
      .ok [[("age".data, .ltOf (.num 5))]] ∧
    ¬ ∃ g, parseFilterString defaultOptions ("age||$gt||1||$and||age||$lt||5".data) =
        .ok [g] ∧ ("age".data, JSVal.gtOf (.num 1)) ∈ g := by
  refine ⟨by decide, ?_⟩
  rintro ⟨g, hg, hmem⟩
  rw [show parseFilterString defaultOptions ("age||$gt||1||$and||age||$lt||5".data) =
      .ok [[("age".data, .ltOf (.num 5))]] from by decide] at hg
  have hginj := Except.ok.inj hg
  simp only [List.cons.injEq, and_true] at hginj
  subst hginj
  simp at hmem

/-- C3 amended: when the same field key occurs in two conditions of one
AND-group, the later condition's resolved value overwrites the earlier
one at the key's original position (JS object assignment), so the earlier
constraint is lost rather than preserved in a list. -/
theorem c3_later_overwrites (f v1 v2 : Str)
    (hfne : f ≠ [])
    (hf : ∀ c ∈ f, c ≠ '|') (hv1 : ∀ c ∈ v1, c ≠ '|') (hv2 : ∀ c ∈ v2, c ≠ '|')
    (hOr : jsSplitL ("||$or||".data)
        ((f ++ "||$gt||".data ++ v1) ++ "||$and||".data ++ (f ++ "||$lt||".data ++ v2)) =
      [(f ++ "||$gt||".data ++ v1) ++ "||$and||".data ++ (f ++ "||$lt||".data ++ v2)])
    (hAnd : jsSplitL ("||$and||".data)
        ((f ++ "||$gt||".data ++ v1) ++ "||$and||".data ++ (f ++ "||$lt||".data ++ v2)) =
      [f ++ "||$gt||".data ++ v1, f ++ "||$lt||".data ++ v2]) :
    parseFilterString defaultOptions
        ((f ++ "||$gt||".data ++ v1) ++ "||$and||".data ++ (f ++ "||$lt||".data ++ v2)) =
      .ok [[(f, .ltOf (parseDateOrNumber v2))]] := by
  have hsplit1 : jsSplitL ("||".data) (f ++ "||$gt||".data ++ v1) = [f, "$gt".data, v1] := by
    have h := @split3_clean f ("$gt".data) v1 hf (by decide) hv1
    have he : f ++ "||".data ++ "$gt".data ++ "||".data ++ v1 = f ++ "||$gt||".data ++ v1 := by
      simp only [List.append_assoc]
      rfl
    rw [he] at h
    exact h
  have hsplit2 : jsSplitL ("||".data) (f ++ "||$lt||".data ++ v2) = [f, "$lt".data, v2] := by
    have h := @split3_clean f ("$lt".data) v2 hf (by decide) hv2
    have he : f ++ "||".data ++ "$lt".data ++ "||".data ++ v2 = f ++ "||$lt||".data ++ v2 := by
      simp only [List.append_assoc]
      rfl
    rw [he] at h
    exact h
  have hws1 : (f ++ "||$gt||".data ++ v1).all isWs = false :=
    all_isWs_false_of_mem (c := '$')
      (List.mem_append_left _ (List.mem_append_right _ (by decide))) (by decide)
  have hws2 : (f ++ "||$lt||".data ++ v2).all isWs = false :=
    all_isWs_false_of_mem (c := '$')
      (List.mem_append_left _ (List.mem_append_right _ (by decide))) (by decide)
  have hne : (f ++ "||$gt||".data ++ v1) ++ "||$and||".data ++ (f ++ "||$lt||".data ++ v2) ≠ [] := by
    intro he
    have : ('$' : Char) ∈ (([] : Str)) := by
      rw [← he]
      exact List.mem_append_left _
        (List.mem_append_left _ (List.mem_append_left _ (List.mem_append_right _ (by decide))))
    simp at this
  unfold parseFilterString
  rw [if_neg hne]
  have hOrSep : defaultOptions.LOOKUP_DELIMITER ++ defaultOptions.OR ++
      defaultOptions.LOOKUP_DELIMITER = "||$or||".data := rfl
  have hAndSep : defaultOptions.LOOKUP_DELIMITER ++ defaultOptions.AND ++
      defaultOptions.LOOKUP_DELIMITER = "||$and||".data := rfl
  rw [hOrSep, hOr]
  simp only [procOrGroups]
  rw [hAndSep, hAnd]
  simp only [procConditions]
  rw [procCondition_three hws1 hsplit1 hfne (by decide), condStep_gt]
  simp only [Except.bind, bind]
  rw [procCondition_three hws2 hsplit2 hfne (by decide), condStep_lt]
  simp [setKey, parseDateOrNumberU, pure, Except.pure]

/-- Witness for the amended C3 at `age||$gt||1||$and||age||$lt||5`. -/
theorem c3_later_overwrites_witness :
    parseFilterString defaultOptions ("age||$gt||1||$and||age||$lt||5".data) =
      .ok [[("age".data, .ltOf (.num 5))]] := by
  have h := c3_later_overwrites ("age".data) ("1".data) ("5".data)
    (by decide) (by decide) (by decide) (by decide) (by decide) (by decide)
  exact h

/-- C4 counterexample: a `#`-delimited nested field path is not expanded
into a right-folded nested object — the full path string is kept as one
flat key.  `user#profile#city||$eq||NewYork` yields the AND-group entry
keyed by the literal string `user#profile#city`, and no entry keyed
`user` exists. -/
theorem c4_nested_flat_cex :
    parseFilterString defaultOptions ("user#profile#city||$eq||NewYork".data) =
      .ok [[("user#profile#city".data, .str ("NewYork".data))]] ∧
    ¬ ∃ g inner, parseFilterString defaultOptions ("user#profile#city||$eq||NewYork".data) =
        .ok [g] ∧ ("user".data, inner) ∈ g := by
  refine ⟨by decide, ?_⟩
  rintro ⟨g, inner, hg, hmem⟩
  rw [show parseFilterString defaultOptions ("user#profile#city||$eq||NewYork".data) =
      .ok [[("user#profile#city".data, .str ("NewYork".data))]] from by decide] at hg
  have hginj := Except.ok.inj hg
  simp only [List.cons.injEq, and_true] at hginj
  subst hginj
  simp at hmem

/-- C4 amended: the parser emits the `#`-containing field path unchanged
as a single flat key mapping to the resolved comparison value (the
right-folding `handleNestedField` helper exists in the source but is never
invoked by any parsing path). -/
theorem c4_nested_path_kept_flat (f v : Str)
    (hfne : f ≠ [])
    (hf : ∀ c ∈ f, c ≠ '|') (hv : ∀ c ∈ v, c ≠ '|')
    (hOr : jsSplitL ("||$or||".data) (f ++ "||$eq||".data ++ v) =
      [f ++ "||$eq||".data ++ v])
    (hAnd : jsSplitL ("||$and||".data) (f ++ "||$eq||".data ++ v) =
      [f ++ "||$eq||".data ++ v]) :
    parseFilterString defaultOptions (f ++ "||$eq||".data ++ v) =
      .ok [[(f, (parseDateOrNumber v).toVal)]] := by
  have hsplit : jsSplitL ("||".data) (f ++ "||$eq||".data ++ v) = [f, "$eq".data, v] := by
    have h := @split3_clean f ("$eq".data) v hf (by decide) hv
    have he : f ++ "||".data ++ "$eq".data ++ "||".data ++ v = f ++ "||$eq||".data ++ v := by
      simp only [List.append_assoc]
      rfl
    rw [he] at h
    exact h
  have hws : (f ++ "||$eq||".data ++ v).all isWs = false :=
    all_isWs_false_of_mem (c := '$')
      (List.mem_append_left _ (List.mem_append_right _ (by decide))) (by decide)
  rw [parse_single3 hws hOr hAnd hsplit hfne (by decide), condStep_exact]
  simp [setKey, Except.map, parseDateOrNumberU]

/-- Witness for the amended C4 at `user#profile#city||$eq||NewYork`. -/
theorem c4_nested_path_kept_flat_witness :
    parseFilterString defaultOptions ("user#profile#city||$eq||NewYork".data) =
      .ok [[("user#profile#city".data, .str ("NewYork".data))]] := by
  have h := c4_nested_path_kept_flat ("user#profile#city".data) ("NewYork".data)
    (by decide) (by decide) (by decide) (by decide) (by decide)
  exact h

@[simp] theorem whereList_buildSelect (o : Options) (q : Query) (d : Descriptor) :
    (QB.buildSelect o q d).whereList = d.whereList := by
  unfold QB.buildSelect
  split <;> rfl

@[simp] theorem whereList_buildJoin (o : Options) (q : Query) (d : Descriptor) :
    (QB.buildJoin o q d).whereList = d.whereList := by
  unfold QB.buildJoin
  split <;> rfl

@[simp] theorem whereList_buildSort (o : Options) (q : Query) (d : Descriptor) :
    (QB.buildSort o q d).whereList = d.whereList := by
  unfold QB.buildSort
  split <;> rfl

@[simp] theorem whereList_buildLimit (q : Query) (d : Descriptor) :
    (QB.buildLimit q d).whereList = d.whereList := by
  unfold QB.buildLimit
  split <;> rfl

@[simp] theorem whereList_buildPage (o : Options) (q : Query) (d : Descriptor) :
    (QB.buildPage o q d).whereList = d.whereList := by
  unfold QB.buildPage
  split <;> rfl

theorem whereList_buildCache {q : Query} {d d' : Descriptor}
    (h : QB.buildCache q d = .ok d') : d'.whereList = d.whereList := by
  unfold QB.buildCache at h
  split at h
  · cases hj : jsonParseLite (toLower (q.cache.getD [])) with
    | error e =>
      rw [hj] at h
      simp [bind, Except.bind] at h
    | ok jv =>
      rw [hj] at h
      simp only [bind, Except.bind, pure, Except.pure] at h
      cases h
      rfl
  · cases h
    rfl

theorem skip_take_buildFilter {o : Options} {q : Query} {d d' : Descriptor}
    (h : QB.buildFilter o q d = .ok d') :
    d'.skip = d.skip ∧ d'.take = d.take := by
  unfold QB.buildFilter at h
  split at h
  · cases hp : QB.parseFilterString o (q.filter.getD []) with
    | error e =>
      rw [hp] at h
      simp [bind, Except.bind] at h
    | ok w =>
      rw [hp] at h
      simp only [bind, Except.bind, pure, Except.pure] at h
      cases h
      exact ⟨rfl, rfl⟩
  · cases h
    exact ⟨rfl, rfl⟩

theorem buildSelect_filter_irrel (o : Options) (q : Query) (x : Option Str) (d : Descriptor) :
    QB.buildSelect o { q with filter := x } d = QB.buildSelect o q d := rfl

theorem buildJoin_filter_irrel (o : Options) (q : Query) (x : Option Str) (d : Descriptor) :
    QB.buildJoin o { q with filter := x } d = QB.buildJoin o q d := rfl

theorem buildSort_filter_irrel (o : Options) (q : Query) (x : Option Str) (d : Descriptor) :
    QB.buildSort o { q with filter := x } d = QB.buildSort o q d := rfl

theorem buildCache_filter_irrel (q : Query) (x : Option Str) (d : Descriptor) :
    QB.buildCache { q with filter := x } d = QB.buildCache q d := rfl

theorem buildLimit_filter_irrel (q : Query) (x : Option Str) (d : Descriptor) :
    QB.buildLimit { q with filter := x } d = QB.buildLimit q d := rfl

theorem buildPage_filter_irrel (o : Options) (q : Query) (x : Option Str) (d : Descriptor) :
    QB.buildPage o { q with filter := x } d = QB.buildPage o q d := rfl

/-- C5 counterexample: an all-whitespace filter string is truthy, so it is
parsed, all its OR-groups yield zero conditions, and `build` stores the
`where` key as the present-but-empty list — the key is not absent as the
claim requires. -/
theorem c5_whitespace_where_present_cex :
    QB.build defaultOptions { filter := some (" ".data) } =
      .ok { whereList := some [] } ∧
    ∀ d, QB.build defaultOptions { filter := some (" ".data) } = .ok d →
      d.whereList ≠ none := by
  refine ⟨by decide, ?_⟩
  intro d hd
  rw [show QB.build defaultOptions { filter := some (" ".data) } =
      .ok { whereList := some [] } from by decide] at hd
  have h := Except.ok.inj hd
  rw [← h]
  simp

/-- C5 amended: an absent filter parameter and the empty-string filter
yield the same descriptor, with no `where` key; but a truthy (non-empty)
filter string whose OR-groups all yield zero conditions — such as an
all-whitespace filter — produces a descriptor whose `where` key is present
as the empty list. -/
theorem c5_empty_vs_whitespace_where (q : Query) :
    QB.build defaultOptions { q with filter := none } =
      QB.build defaultOptions { q with filter := some [] } ∧
    (∀ d, QB.build defaultOptions { q with filter := none } = .ok d →
      d.whereList = none) ∧
    (∀ fs d, QB.build defaultOptions { q with filter := some fs } = .ok d →
      fs ≠ [] → QB.parseFilterString defaultOptions fs = .ok [] →
      d.whereList = some []) := by
  have hstep : ∀ (x : Option Str),
      QB.buildPage defaultOptions { q with filter := x }
        (QB.buildLimit { q with filter := x }
          (QB.buildSort defaultOptions { q with filter := x }
            (QB.buildJoin defaultOptions { q with filter := x }
              (QB.buildSelect defaultOptions { q with filter := x } {})))) =
      QB.buildPage defaultOptions q
        (QB.buildLimit q
          (QB.buildSort defaultOptions q
            (QB.buildJoin defaultOptions q
              (QB.buildSelect defaultOptions q {})))) := fun _ => rfl
  refine ⟨?_, ?_, ?_⟩
  · unfold QB.build
    have h1 : ∀ d, QB.buildFilter defaultOptions { q with filter := none } d = .ok d := by
      intro d
      simp [QB.buildFilter, notValid]
    have h2 : ∀ d, QB.buildFilter defaultOptions { q with filter := some [] } d = .ok d := by
      intro d
      simp [QB.buildFilter, notValid]
    simp only [h1, h2, buildSelect_filter_irrel, buildJoin_filter_irrel,
      buildSort_filter_irrel, buildCache_filter_irrel, buildLimit_filter_irrel,
      buildPage_filter_irrel]
  · intro d hd
    unfold QB.build at hd
    simp only [bind, Except.bind] at hd
    cases hc : QB.buildCache { q with filter := none }
        (QB.buildSort defaultOptions { q with filter := none }
          (QB.buildJoin defaultOptions { q with filter := none }
            (QB.buildSelect defaultOptions { q with filter := none } {}))) with
    | error e =>
      rw [hc] at hd
      simp at hd
    | ok out =>
      rw [hc] at hd
      simp only at hd
      have hfi : QB.buildFilter defaultOptions { q with filter := none }
          (QB.buildPage defaultOptions { q with filter := none }
            (QB.buildLimit { q with filter := none } out)) =
          .ok (QB.buildPage defaultOptions { q with filter := none }
            (QB.buildLimit { q with filter := none } out)) := by
        simp [QB.buildFilter, notValid]
      rw [hfi] at hd
      have hde := Except.ok.inj hd
      subst hde
      have hwc := whereList_buildCache hc
      simp [hwc]
  · intro fs d hd hfs hparse
    unfold QB.build at hd
    simp only [bind, Except.bind] at hd
    cases hc : QB.buildCache { q with filter := some fs }
        (QB.buildSort defaultOptions { q with filter := some fs }
          (QB.buildJoin defaultOptions { q with filter := some fs }
            (QB.buildSelect defaultOptions { q with filter := some fs } {}))) with
    | error e =>
      rw [hc] at hd
      simp at hd
    | ok out =>
      rw [hc] at hd
      simp only at hd
      have hfi : QB.buildFilter defaultOptions { q with filter := some fs }
          (QB.buildPage defaultOptions { q with filter := some fs }
            (QB.buildLimit { q with filter := some fs } out)) =
          .ok { QB.buildPage defaultOptions { q with filter := some fs }
              (QB.buildLimit { q with filter := some fs } out) with
              whereList := some [] } := by
        unfold QB.buildFilter
        rw [if_pos (by simp [notValid, hfs])]
        simp only [Option.getD]
        rw [hparse]
        rfl
      rw [hfi] at hd
      have hde := Except.ok.inj hd
      subst hde
      rfl

/-- Witness for the amended C5: absent and empty filter agree, and the
whitespace filter stores `where` as the empty list. -/
theorem c5_empty_vs_whitespace_where_witness :
    QB.build defaultOptions ({} : Query) =
      QB.build defaultOptions { filter := some [] } ∧
    ∃ d, QB.build defaultOptions { filter := some (" ".data) } = .ok d ∧
      d.whereList = some [] := by
  have h := c5_empty_vs_whitespace_where ({} : Query)
  have hb : QB.build defaultOptions { filter := some (" ".data) } =
      .ok { whereList := some [] } := by decide
  exact ⟨h.1, ⟨_, hb, h.2.2 (" ".data) _ hb (by decide) (by decide)⟩⟩

/-- C6: whenever the page parameter is present and non-empty and `build`
succeeds, the descriptor carries `skip = limit * (page - 1)` and
`take = limit`, where `limit` is the parsed limit parameter or the default
`25` when the limit is absent or empty (JS falsy). -/
theorem c6_page_skip_take (q : Query) (d : Descriptor) (ps : Str)
    (hd : QB.build defaultOptions q = .ok d)
    (hp : q.page = some ps) (hps : ps ≠ []) :
    d.skip = some ((jsParseInt (match q.limit with
        | some l => if l = [] then "25".data else l
        | none => "25".data)).mul ((jsParseInt ps).sub (.num 1))) ∧
    d.take = some (jsParseInt (match q.limit with
        | some l => if l = [] then "25".data else l
        | none => "25".data)) := by
  unfold QB.build at hd
  simp only [bind, Except.bind] at hd
  cases hc : QB.buildCache q (QB.buildSort defaultOptions q
      (QB.buildJoin defaultOptions q (QB.buildSelect defaultOptions q {}))) with
  | error e =>
    rw [hc] at hd
    simp at hd
  | ok out =>
    rw [hc] at hd
    simp only at hd
    obtain ⟨hskip, htake⟩ := skip_take_buildFilter hd
    rw [hskip, htake]
    unfold QB.buildPage
    rw [hp]
    have hnv : notValid (some ps) = false := by
      simp [notValid, hps]
    rw [if_pos (by simp [hnv])]
    exact ⟨rfl, rfl⟩

/-- Witness for C6 at `page=2`, `limit=10` (skip 10, take 10). -/
theorem c6_page_skip_take_witness :
    ∃ d, QB.build defaultOptions
        { page := some ("2".data), limit := some ("10".data) } = .ok d ∧
      d.skip = some (.num 10) ∧ d.take = some (.num 10) := by
  have hb : QB.build defaultOptions
      { page := some ("2".data), limit := some ("10".data) } =
      .ok { take := some (.num 10), skip := some (.num 10) } := by decide
  have h := c6_page_skip_take _ _ ("2".data) hb rfl (by decide)
  refine ⟨_, hb, ?_, ?_⟩
  · rw [h.1]
    decide
  · rw [h.2]
    decide

/-- C7: operand coercion.  Scalar operands of `$eq`, `$gt`, `$gte`, `$lt`,
`$lte` and both `$between` bounds, and every member of an `$in` list, are
resolved through `parseDateOrNumber` (date-shaped strings stay strings,
numeric strings become numbers, anything else stays the original string);
operands of `$cont`/`$starts`/`$ends` are never coerced and are wrapped as
the patterns `%v%`, `v%` and `%v`.  In particular `id||$in||1,2,3` parses
to a membership value over the numbers 1, 2, 3. -/
theorem c7_value_coercion :
    (∀ f v, createWhereObject defaultOptions f ("$eq".data) (some v) false =
      .ok [(f, (parseDateOrNumber v).toVal)]) ∧
    (∀ f v, createWhereObject defaultOptions f ("$gt".data) (some v) false =
      .ok [(f, .gtOf (parseDateOrNumber v))]) ∧
    (∀ f v, createWhereObject defaultOptions f ("$gte".data) (some v) false =
      .ok [(f, .gteOf (parseDateOrNumber v))]) ∧
    (∀ f v, createWhereObject defaultOptions f ("$lt".data) (some v) false =
      .ok [(f, .ltOf (parseDateOrNumber v))]) ∧
    (∀ f v, createWhereObject defaultOptions f ("$lte".data) (some v) false =
      .ok [(f, .lteOf (parseDateOrNumber v))]) ∧
    (∀ f v a b, jsSplitL (",".data) v = [a, b] →
      createWhereObject defaultOptions f ("$between".data) (some v) false =
        .ok [(f, .betweenOf (parseDateOrNumber a) (parseDateOrNumber b))]) ∧
    (∀ f v, createWhereObject defaultOptions f ("$in".data) (some v) false =
      .ok [(f, .inOf ((jsSplitL (",".data) v).map parseDateOrNumber))]) ∧
    (∀ f v, createWhereObject defaultOptions f ("$cont".data) (some v) false =
      .ok [(f, .like ('%' :: v ++ "%".data))]) ∧
    (∀ f v, createWhereObject defaultOptions f ("$starts".data) (some v) false =
      .ok [(f, .like (v ++ "%".data))]) ∧
    (∀ f v, createWhereObject defaultOptions f ("$ends".data) (some v) false =
      .ok [(f, .like ('%' :: v))]) ∧
    (∀ v, (dateShape v = true ∨ dateTimeShape v = true) →
      parseDateOrNumber v = .str v) ∧
    (∀ v q, ¬ (dateShape v = true ∨ dateTimeShape v = true) →
      jsNumber v = some q → parseDateOrNumber v = .num q) ∧
    (∀ v, ¬ (dateShape v = true ∨ dateTimeShape v = true) →
      jsNumber v = none → parseDateOrNumber v = .str v) ∧
    parseFilterString defaultOptions ("id||$in||1,2,3".data) =
      .ok [[("id".data, .inOf [.num 1, .num 2, .num 3])]] := by
  refine ⟨?_, ?_, ?_, ?_, ?_, ?_, ?_, ?_, ?_, ?_, ?_, ?_, ?_, by decide⟩
  · intro f v
    simp [createWhereObject, defaultOptions, pure, Except.pure, bind, Except.bind,
      parseDateOrNumberU]
  · intro f v
    simp [createWhereObject, defaultOptions, pure, Except.pure, bind, Except.bind,
      parseDateOrNumberU]
  · intro f v
    simp [createWhereObject, defaultOptions, pure, Except.pure, bind, Except.bind,
      parseDateOrNumberU]
  · intro f v
    simp [createWhereObject, defaultOptions, pure, Except.pure, bind, Except.bind,
      parseDateOrNumberU]
  · intro f v
    simp [createWhereObject, defaultOptions, pure, Except.pure, bind, Except.bind,
      parseDateOrNumberU]
  · intro f v a b hab
    simp [createWhereObject, defaultOptions, pure, Except.pure, bind, Except.bind,
      parseDateOrNumberU, hab]
  · intro f v
    simp [createWhereObject, defaultOptions, pure, Except.pure, bind, Except.bind,
      parseDateOrNumberU]
  · intro f v
    simp [createWhereObject, defaultOptions, pure, Except.pure, bind, Except.bind, tmpl]
  · intro f v
    simp [createWhereObject, defaultOptions, pure, Except.pure, bind, Except.bind, tmpl]
  · intro f v
    simp [createWhereObject, defaultOptions, pure, Except.pure, bind, Except.bind, tmpl]
  · intro v hdate
    unfold parseDateOrNumber
    rw [if_pos]
    simpa using hdate
  · intro v q hdate hnum
    unfold parseDateOrNumber
    rw [if_neg (by simpa using hdate), hnum]
  · intro v hdate hnum
    unfold parseDateOrNumber
    rw [if_neg (by simpa using hdate), hnum]

/-- Witness for C7: the `$gt` operand `25` is coerced to the number 25, a
date-shaped `$eq` operand stays a string, and the `$between` split
hypothesis holds at `1,3`. -/
theorem c7_value_coercion_witness :
    createWhereObject defaultOptions ("age".data) ("$gt".data) (some ("25".data)) false =
      .ok [("age".data, .gtOf (.num 25))] ∧
    createWhereObject defaultOptions ("date".data) ("$eq".data)
        (some ("2021-01-01".data)) false =
      .ok [("date".data, .str ("2021-01-01".data))] ∧
    createWhereObject defaultOptions ("id".data) ("$between".data)
        (some ("1,3".data)) false =
      .ok [("id".data, .betweenOf (.num 1) (.num 3))] := by
  obtain ⟨heq, hgt, -, -, -, hbet, -⟩ := c7_value_coercion
  refine ⟨?_, ?_, ?_⟩
  · rw [hgt ("age".data) ("25".data)]
    decide
  · rw [heq ("date".data) ("2021-01-01".data)]
    decide
  · rw [hbet ("id".data) ("1,3".data) ("1".data) ("3".data) (by decide)]
    decide

/-- C9 counterexample: `build` is not exception-free for every
string-valued parameter bag — a non-empty cache value that is not a JSON
literal (here `yes`) makes `JSON.parse` throw, which propagates out of
`build`. -/
theorem c9_cache_throws_cex :
    QB.build defaultOptions { cache := some ("yes".data) } = .error () := by decide

/-- C9 amended: a condition whose NOT-stripped operator token matches none
of the configured operator keywords falls back to the default branch and
resolves to the raw value as a literal equality target (wrapped in `Not`
when the NOT prefix was present), without throwing. -/
theorem c9_unknown_operator_defaults (f op v : Str) (isNot : Bool)
    (h1 : op ≠ "$ne".data) (h2 : op ≠ "$eq".data) (h3 : op ≠ "$cont".data)
    (h4 : op ≠ "$starts".data) (h5 : op ≠ "$ends".data) (h6 : op ≠ "$isnull".data)
    (h7 : op ≠ "$gt".data) (h8 : op ≠ "$gte".data) (h9 : op ≠ "$lt".data)
    (h10 : op ≠ "$lte".data) (h11 : op ≠ "$in".data) (h12 : op ≠ "$between".data) :
    createWhereObject defaultOptions f op (some v) isNot =
      .ok [(f, if isNot then .notOf (.str v) else .str v)] := by
  unfold createWhereObject
  simp only [defaultOptions, h1, h2, h3, h4, h5, h6, h7, h8, h9, h10, h11, h12,
    if_false, if_neg, pure, Except.pure, bind, Except.bind]
  cases isNot <;> simp

/-- Witness for the amended C9 at the unknown operator `$foo`. -/
theorem c9_unknown_operator_defaults_witness :
    createWhereObject defaultOptions ("name".data) ("$foo".data)
        (some ("x".data)) false =
      .ok [("name".data, .str ("x".data))] := by
  have h := c9_unknown_operator_defaults ("name".data) ("$foo".data) ("x".data) false
    (by decide) (by decide) (by decide) (by decide) (by decide) (by decide)
    (by decide) (by decide) (by decide) (by decide) (by decide) (by decide)
  simpa using h

@[simp] theorem joins_qbSelect (st : QBState) (c : Str) :
    (qbSelect st c).joins = st.joins := rfl

@[simp] theorem joins_qbAddSelect (st : QBState) (c : Str) (a : Option Str) :
    (qbAddSelect st c a).joins = st.joins := rfl

@[simp] theorem joins_qbTake (st : QBState) (n : JSNumber) :
    (qbTake st n).joins = st.joins := rfl

@[simp] theorem joins_qbSkip (st : QBState) (n : JSNumber) :
    (qbSkip st n).joins = st.joins := rfl

@[simp] theorem joins_qbWhere (st : QBState) (g : List SQLFrag) :
    (qbWhere st g).joins = st.joins := rfl

@[simp] theorem joins_qbOrWhere (st : QBState) (g : List SQLFrag) :
    (qbOrWhere st g).joins = st.joins := rfl

@[simp] theorem joins_qbOrderBy (st : QBState) (c d : Str) (n : Option Str) :
    (qbOrderBy st c d n).joins = st.joins := rfl

@[simp] theorem joins_qbLeftJoin (st : QBState) (p a : Str) :
    (qbLeftJoin st p a).joins = st.joins ++ [(false, p, a)] := rfl

@[simp] theorem selects_qbLeftJoin (st : QBState) (p a : Str) :
    (qbLeftJoin st p a).selects = st.selects := rfl

@[simp] theorem selects_qbInnerJoin (st : QBState) (p a : Str) :
    (qbInnerJoin st p a).selects = st.selects := rfl

@[simp] theorem selects_qbSelect (st : QBState) (c : Str) :
    (qbSelect st c).selects = [(c, none)] := rfl

@[simp] theorem selects_qbAddSelect (st : QBState) (c : Str) (a : Option Str) :
    (qbAddSelect st c a).selects = st.selects ++ [(c, a)] := rfl

@[simp] theorem selects_qbWhere (st : QBState) (g : List SQLFrag) :
    (qbWhere st g).selects = st.selects := rfl

@[simp] theorem selects_qbOrWhere (st : QBState) (g : List SQLFrag) :
    (qbOrWhere st g).selects = st.selects := rfl

@[simp] theorem selects_qbOrderBy (st : QBState) (c d : Str) (n : Option Str) :
    (qbOrderBy st c d n).selects = st.selects := rfl

@[simp] theorem selects_qbTake (st : QBState) (n : JSNumber) :
    (qbTake st n).selects = st.selects := rfl

@[simp] theorem selects_qbSkip (st : QBState) (n : JSNumber) :
    (qbSkip st n).selects = st.selects := rfl

theorem guardedAddSelect_joins (st : QBState) (cols : List Str) (c : Str)
    (a : Option Str) : (guardedAddSelect st cols c a).1.joins = st.joins := by
  unfold guardedAddSelect
  split <;> rfl

theorem guardedFold_joins (colf : Str → Str) (alf : Str → Option Str) :
    ∀ (L : List Str) (st : QBState) (cols : List Str),
      ((L.foldl (fun p c => guardedAddSelect p.1 p.2 (colf c) (alf c)) (st, cols)).1).joins
        = st.joins := by
  intro L
  induction L with
  | nil => intro st cols; rfl
  | cons c cs ih =>
    intro st cols
    simp only [List.foldl_cons]
    cases hga : guardedAddSelect st cols (colf c) (alf c) with
    | mk st' cols' =>
      have hj : st'.joins = st.joins := by
        have := guardedAddSelect_joins st cols (colf c) (alf c)
        rw [hga] at this
        exact this
      rw [ih st' cols', hj]

theorem guardedFold_inv (colf : Str → Str) (alf : Str → Option Str) :
    ∀ (L : List Str) (st : QBState) (cols : List Str),
      st.selects.map Prod.fst = cols →
      ((L.foldl (fun p c => guardedAddSelect p.1 p.2 (colf c) (alf c)) (st, cols)).1).selects.map
          Prod.fst =
        (L.foldl (fun p c => guardedAddSelect p.1 p.2 (colf c) (alf c)) (st, cols)).2 ∧
      (cols.Nodup →
        ((L.foldl (fun p c => guardedAddSelect p.1 p.2 (colf c) (alf c)) (st, cols)).2).Nodup) := by
  intro L
  induction L with
  | nil => intro st cols h; exact ⟨h, fun hn => hn⟩
  | cons c cs ih =>
    intro st cols h
    simp only [List.foldl_cons]
    unfold guardedAddSelect
    split
    · exact ih st cols h
    · rename_i hnotin
      have h' : (qbAddSelect st (colf c) (alf c)).selects.map Prod.fst = cols ++ [colf c] := by
        simp [h]
      have := ih (qbAddSelect st (colf c) (alf c)) (cols ++ [colf c]) h'
      refine ⟨this.1, fun hn => this.2 ?_⟩
      rw [List.nodup_append]
      exact ⟨hn, List.nodup_singleton _, by simpa using hnotin⟩

theorem listSelfPre {α : Type} (l : List α) : l <+: l :=
  ⟨[], List.append_nil l⟩

theorem except_bind_ok {α β : Type} {X : Except Unit α} {g : α → Except Unit β} {b : β}
    (h : (X >>= g) = .ok b) : ∃ a, X = .ok a ∧ g a = .ok b := by
  cases X with
  | error e => simp [bind, Except.bind] at h
  | ok a => exact ⟨a, rfl, by simpa [bind, Except.bind] using h⟩

theorem pre_qbAddSelect (st : QBState) (c : Str) (a : Option Str) :
    st.selects <+: (qbAddSelect st c a).selects := by
  simp [qbAddSelect]

theorem pre_guardedAddSelect (st : QBState) (cols : List Str) (c : Str)
    (a : Option Str) : st.selects <+: (guardedAddSelect st cols c a).1.selects := by
  unfold guardedAddSelect
  split
  · exact listSelfPre _
  · simp [qbAddSelect]

theorem pre_guardedFold (colf : Str → Str) (alf : Str → Option Str) :
    ∀ (L : List Str) (st : QBState) (cols : List Str),
      st.selects <+:
        ((L.foldl (fun p c => guardedAddSelect p.1 p.2 (colf c) (alf c)) (st, cols)).1).selects := by
  intro L
  induction L with
  | nil => intro st cols; exact listSelfPre _
  | cons c cs ih =>
    intro st cols
    simp only [List.foldl_cons]
    cases hga : guardedAddSelect st cols (colf c) (alf c) with
    | mk st' cols' =>
      have h1 : st.selects <+: st'.selects := by
        have := pre_guardedAddSelect st cols (colf c) (alf c)
        rw [hga] at this
        exact this
      exact h1.trans (ih st' cols')

theorem pre_guardedAddSelect2 (st : QBState) (cols : List Str) (c : Str)
    (a : Option Str) (l : List (Str × Option Str)) (hl : l <+: st.selects) :
    l <+: (guardedAddSelect st cols c a).1.selects :=
  hl.trans (pre_guardedAddSelect st cols c a)

theorem pre_guardedFold2 (colf : Str → Str) (alf : Str → Option Str)
    (L : List Str) (st : QBState) (cols : List Str)
    (l : List (Str × Option Str)) (hl : l <+: st.selects) :
    l <+: ((L.foldl (fun p c => guardedAddSelect p.1 p.2 (colf c) (alf c)) (st, cols)).1).selects :=
  hl.trans (pre_guardedFold colf alf L st cols)

theorem pre_foldP {α : Type} (f : SelCtx → α → SelCtx)
    (h : ∀ ctx x, ctx.st.selects <+: (f ctx x).st.selects) :
    ∀ (l : List α) (ctx : SelCtx), ctx.st.selects <+: (l.foldl f ctx).st.selects := by
  intro l
  induction l with
  | nil => intro ctx; exact listSelfPre _
  | cons x xs ih => intro ctx; exact (h ctx x).trans (ih (f ctx x))

theorem pre_psf_parts (o : Options) (aliasStr : Str) (w : List Str)
    (parts : List Str) (ctx : SelCtx) :
    ctx.st.selects <+:
      ((if parts.length = 2 then
        let relation := parts.getD 0 []
        let subField := parts.getD 1 []
        if relation = [] then ctx
        else
          let relationAlias := aliasStr ++ "__".data ++ relation
          let ctx2 :=
            if relation ∈ ctx.joined then ctx
            else if relation ∈ w then
              let st := qbLeftJoin ctx.st (aliasStr ++ ".".data ++ relation) relationAlias
              let p := (getEntityColumns relation).foldl
                (fun (p : QBState × List Str) column =>
                  guardedAddSelect p.1 p.2 (relationAlias ++ ".".data ++ column)
                    (some (relationAlias ++ "_".data ++ column))) (st, ctx.cols)
              { ctx with st := p.1, cols := p.2, joined := ctx.joined ++ [relation] }
            else
              let st := qbLeftJoin ctx.st (aliasStr ++ ".".data ++ relation) relationAlias
              { ctx with st := st, joined := ctx.joined ++ [relation] }
          if relation ∉ w ∧ subField ≠ [] ∧ subField ≠ "*".data then
            let p := guardedAddSelect ctx2.st ctx2.cols
              (relationAlias ++ ".".data ++ subField)
              (some (relationAlias ++ "_".data ++ subField))
            { ctx2 with st := p.1, cols := p.2 }
          else ctx2
      else if 2 < parts.length then
        let parentRelation := parts.getD 0 []
        let childRelation := parts.getD 1 []
        if parentRelation = [] ∨ childRelation = [] then ctx
        else
          let nestedField := List.intercalate o.RELATION_DELIMITER (parts.drop 2)
          let parentAlias := aliasStr ++ "__".data ++ parentRelation
          let nestedAlias := parentAlias ++ "__".data ++ childRelation
          let ctxA :=
            if parentRelation ∈ ctx.joined then ctx
            else
              let st := qbLeftJoin ctx.st (aliasStr ++ ".".data ++ parentRelation) parentAlias
              { ctx with st := st, joined := ctx.joined ++ [parentRelation] }
          let nestedRelationKey := parentAlias ++ ".".data ++ childRelation
          let ctxB :=
            if nestedRelationKey ∈ ctxA.joined then ctxA
            else
              let st := qbLeftJoin ctxA.st (parentAlias ++ ".".data ++ childRelation) nestedAlias
              { ctxA with st := st, joined := ctxA.joined ++ [nestedRelationKey] }
          let nestedRelationFullKey := parentRelation ++ ".".data ++ childRelation
          if nestedField = "*".data ∨ nestedRelationFullKey ∈ w then
            let p := (getEntityColumns childRelation).foldl
              (fun (p : QBState × List Str) column =>
                guardedAddSelect p.1 p.2 (nestedAlias ++ ".".data ++ column)
                  (some (nestedAlias ++ "_".data ++ column))) (ctxB.st, ctxB.cols)
            { ctxB with st := p.1, cols := p.2 }
          else if nestedField ≠ [] then
            let p := guardedAddSelect ctxB.st ctxB.cols
              (nestedAlias ++ ".".data ++ nestedField)
              (some (nestedAlias ++ "_".data ++ nestedField))
            { ctxB with st := p.1, cols := p.2 }
          else ctxB
      else ctx) : SelCtx).st.selects := by
  dsimp only
  repeat' split
  all_goals first
    | exact listSelfPre _
    | exact pre_guardedAddSelect2 _ _ _ _ _ (listSelfPre _)
    | exact pre_guardedFold2 _ _ _ _ _ _ (listSelfPre _)
    | exact pre_guardedAddSelect2 _ _ _ _ _
        (pre_guardedFold2 _ _ _ _ _ _ (listSelfPre _))

theorem pre_processSelectField (o : Options) (aliasStr : Str) (w : List Str)
    (hr : Bool) (ctx : SelCtx) (field : Str) :
    ctx.st.selects <+: (processSelectField o aliasStr w hr ctx field).st.selects := by
  unfold processSelectField
  repeat' split
  all_goals first
    | exact listSelfPre _
    | exact pre_guardedAddSelect2 _ _ _ _ _ (listSelfPre _)
    | exact pre_psf_parts o aliasStr w (jsSplitL o.RELATION_DELIMITER field) ctx



theorem pre_ite (c : Prop) [i : Decidable c] (a b : SelCtx)
    (l0 : List (Str × Option Str)) (ha : l0 <+: a.st.selects)
    (hb : l0 <+: b.st.selects) : l0 <+: (if c then a else b).st.selects := by
  split
  · exact ha
  · exact hb

theorem pre_ite_pair (c : Prop) [i : Decidable c] (a1 : QBState)
    (a2 : List Str × List Str) (b1 : QBState) (b2 : List Str × List Str)
    (l0 : List (Str × Option Str)) (ha : l0 <+: a1.selects)
    (hb : l0 <+: b1.selects) :
    l0 <+: ((if c then (a1, a2) else (b1, b2)) : QBState × List Str × List Str).1.selects := by
  split
  · exact ha
  · exact hb

theorem pre_foldP2 {α : Type} (f : SelCtx → α → SelCtx)
    (h : ∀ ctx x, ctx.st.selects <+: (f ctx x).st.selects)
    (l : List α) (ctx : SelCtx) (l0 : List (Str × Option Str))
    (hl : l0 <+: ctx.st.selects) : l0 <+: ((l.foldl f ctx).st.selects) :=
  hl.trans (pre_foldP f h l ctx)

theorem pre_pstf_parts (o : Options) (aliasStr : Str) (parts : List Str)
    (ctx : SelCtx) :
    ctx.st.selects <+:
      ((if parts.length < 2 then ctx
        else
          let relation := parts.getD 0 []
          let subField := parts.getD 1 []
          if relation = [] ∨ subField = [] then ctx
          else
            let relationAlias := aliasStr ++ "__".data ++ relation
            let ctx2 :=
              if relation ∈ ctx.joined then ctx
              else
                let st := qbLeftJoin ctx.st (aliasStr ++ ".".data ++ relation) relationAlias
                { ctx with st := st, joined := ctx.joined ++ [relation] }
            let p := guardedAddSelect ctx2.st ctx2.cols
              (relationAlias ++ ".".data ++ subField) none
            { ctx2 with st := p.1, cols := p.2 } : SelCtx)).st.selects := by
  dsimp only
  repeat' split
  all_goals first
    | exact listSelfPre _
    | exact pre_guardedAddSelect2 _ _ _ _ _ (listSelfPre _)

theorem pre_processSortField (o : Options) (aliasStr : Str) (ctx : SelCtx)
    (field : Str) :
    ctx.st.selects <+: (processSortField o aliasStr ctx field).st.selects := by
  unfold processSortField
  repeat' split
  all_goals first
    | exact listSelfPre _
    | exact pre_guardedAddSelect2 _ _ _ _ _ (listSelfPre _)
    | exact pre_pstf_parts o aliasStr (jsSplitL o.RELATION_DELIMITER field) ctx

theorem pre_pj_parts (o : Options) (aliasStr : Str) (w : List Str)
    (nested : NestedMap) (selectRaw : Option Str) (relation joinType : Str)
    (ctx : SelCtx) :
    ctx.st.selects <+:
      ((if relation = [] then ctx
        else if relation ∈ ctx.joined then ctx
        else
          let relationAlias := aliasStr ++ "__".data ++ relation
          let isInSelect := match selectRaw with
            | some s => containsSub (relation ++ ".".data) s
            | none => false
          let hasWildcard := match selectRaw with
            | some s => containsSub (relation ++ ".*".data) s
            | none => false
          let ctx2 :=
            if isInSelect = false then
              if toLower joinType = "inner".data then
                { ctx with st := qbInnerJoin ctx.st (aliasStr ++ ".".data ++ relation) relationAlias }
              else
                { ctx with st := qbLeftJoin ctx.st (aliasStr ++ ".".data ++ relation) relationAlias }
            else if hasWildcard = true ∧ relation ∉ w then
              let st :=
                if toLower joinType = "inner".data then
                  qbInnerJoin ctx.st (aliasStr ++ ".".data ++ relation) relationAlias
                else
                  qbLeftJoin ctx.st (aliasStr ++ ".".data ++ relation) relationAlias
              let p := (getEntityColumns relation).foldl
                (fun (p : QBState × List Str) column =>
                  guardedAddSelect p.1 p.2 (relationAlias ++ ".".data ++ column)
                    (some (relationAlias ++ "_".data ++ column))) (st, ctx.cols)
              { ctx with st := p.1, cols := p.2 }
            else ctx
          let ctx3 := { ctx2 with joined := addToSet ctx2.joined relation }
          match nestedGet nested relation with
          | none => ctx3
          | some childRelations =>
            childRelations.foldl (fun ctx childRelation =>
              if childRelation = [] then ctx
              else
                let nestedAlias := relationAlias ++ "__".data ++ childRelation
                let nestedRelationKey := relation ++ ".".data ++ childRelation
                if nestedRelationKey ∈ ctx.joined then ctx
                else
                  let ctx4 :=
                    let st := qbLeftJoin ctx.st (relationAlias ++ ".".data ++ childRelation) nestedAlias
                    { ctx with st := st, joined := ctx.joined ++ [nestedRelationKey] }
                  if nestedRelationKey ∈ w then
                    let p := (getEntityColumns childRelation).foldl
                      (fun (p : QBState × List Str) column =>
                        guardedAddSelect p.1 p.2 (nestedAlias ++ ".".data ++ column)
                          (some (nestedAlias ++ "_".data ++ column))) (ctx4.st, ctx4.cols)
                    { ctx4 with st := p.1, cols := p.2 }
                  else ctx4) ctx3 : SelCtx)).st.selects := by
  dsimp only
  repeat' split
  all_goals first
    | exact listSelfPre _
    | exact pre_guardedFold2 _ _ _ _ _ _ (listSelfPre _)
    | (refine pre_foldP2 _ ?_ _ _ _ ?_
       · intro c x
         dsimp only
         repeat' split
         all_goals first
           | exact listSelfPre _
           | exact pre_guardedFold2 _ _ _ _ _ _ (listSelfPre _)
       · first
           | exact listSelfPre _
           | exact pre_guardedFold2 _ _ _ _ _ _ (listSelfPre _))

theorem pre_processJoin (o : Options) (aliasStr : Str) (w : List Str)
    (nested : NestedMap) (selectRaw : Option Str) (ctx : SelCtx) (join : Str) :
    ctx.st.selects <+: (processJoin o aliasStr w nested selectRaw ctx join).st.selects := by
  unfold processJoin
  split
  · exact listSelfPre _
  · exact pre_pj_parts o aliasStr w nested selectRaw
      ((jsSplitL (":".data) join).getD 0 [])
      (match (jsSplitL (":".data) join).get? 1 with
        | some t => t
        | none => "left".data) ctx

theorem pre_rootFoldAux (aliasStr : Str) :
    ∀ (L : List Str) (st : QBState) (cols : List Str),
      st.selects <+:
        ((L.foldl (fun (p : QBState × List Str) f =>
          guardedAddSelect p.1 p.2 (aliasStr ++ ".".data ++ f) none) (st, cols)).1).selects := by
  intro L
  induction L with
  | nil => intro st cols; exact listSelfPre _
  | cons c cs ih =>
    intro st cols
    simp only [List.foldl_cons]
    cases hga : guardedAddSelect st cols (aliasStr ++ ".".data ++ c) none with
    | mk st' cols' =>
      have h1 : st.selects <+: st'.selects := by
        have h2 := pre_guardedAddSelect st cols (aliasStr ++ ".".data ++ c) none
        rw [hga] at h2
        exact h2
      exact h1.trans (ih st' cols')

theorem pre_rootFold (aliasStr : Str) (st : QBState) (cols : List Str)
    (l0 : List (Str × Option Str)) (hl : l0 <+: st.selects) :
    l0 <+: ((rootWildcardFields.foldl
      (fun (p : QBState × List Str) f =>
        guardedAddSelect p.1 p.2 (aliasStr ++ ".".data ++ f) none) (st, cols)).1).selects :=
  hl.trans (pre_rootFoldAux aliasStr rootWildcardFields st cols)

set_option maxHeartbeats 1000000 in
theorem pre_sel_body (o : Options) (aliasStr : Str) (w sf : List Str)
    (qb0 : QBState) (selectFields : List Str) :
    [(aliasStr ++ ".id".data, (none : Option Str))] <+:
      ((let hasRoot := "*".data ∈ selectFields
        let st := qbSelect qb0 (aliasStr ++ ".id".data)
        let cols := [aliasStr ++ ".id".data]
        let stcolsf :=
          if hasRoot then
            let p := rootWildcardFields.foldl
              (fun (p : QBState × List Str) f =>
                guardedAddSelect p.1 p.2 (aliasStr ++ ".".data ++ f) none) (st, cols)
            (p.1, p.2, ([] : List Str))
          else (st, cols, sf)
        let ctx := selectFields.foldl (processSelectField o aliasStr w hasRoot)
          { st := stcolsf.1, joined := [], cols := stcolsf.2.1, sortFields := stcolsf.2.2 }
        if ¬ hasRoot then
          ctx.sortFields.foldl (processSortField o aliasStr) ctx
        else ctx : SelCtx)).st.selects := by
  have base : [(aliasStr ++ ".id".data, (none : Option Str))] <+:
      ((if ("*".data ∈ selectFields) then
          (let p := (rootWildcardFields.foldl
            (fun (p : QBState × List Str) f =>
              guardedAddSelect p.1 p.2 (aliasStr ++ ".".data ++ f) none)
            (qbSelect qb0 (aliasStr ++ ".id".data), [aliasStr ++ ".id".data]));
          (p.1, p.2, ([] : List Str)))
        else (qbSelect qb0 (aliasStr ++ ".id".data), [aliasStr ++ ".id".data], sf)) : QBState × List Str × List Str).1.selects :=
    pre_ite_pair ("*".data ∈ selectFields)
      ((rootWildcardFields.foldl
          (fun (p : QBState × List Str) f =>
            guardedAddSelect p.1 p.2 (aliasStr ++ ".".data ++ f) none)
          (qbSelect qb0 (aliasStr ++ ".id".data), [aliasStr ++ ".id".data])).1)
      (((rootWildcardFields.foldl
          (fun (p : QBState × List Str) f =>
            guardedAddSelect p.1 p.2 (aliasStr ++ ".".data ++ f) none)
          (qbSelect qb0 (aliasStr ++ ".id".data), [aliasStr ++ ".id".data])).2),
       ([] : List Str))
      (qbSelect qb0 (aliasStr ++ ".id".data))
      ([aliasStr ++ ".id".data], sf)
      [(aliasStr ++ ".id".data, (none : Option Str))]
      (pre_rootFold aliasStr (qbSelect qb0 (aliasStr ++ ".id".data))
        [aliasStr ++ ".id".data]
        [(aliasStr ++ ".id".data, (none : Option Str))] (listSelfPre _))
      (listSelfPre _)
  have mid : [(aliasStr ++ ".id".data, (none : Option Str))] <+:
      (selectFields.foldl (processSelectField o aliasStr w
          (decide ("*".data ∈ selectFields)))
        { st := ((if ("*".data ∈ selectFields) then
              (let p := (rootWildcardFields.foldl
                (fun (p : QBState × List Str) f =>
                  guardedAddSelect p.1 p.2 (aliasStr ++ ".".data ++ f) none)
                (qbSelect qb0 (aliasStr ++ ".id".data), [aliasStr ++ ".id".data]));
              (p.1, p.2, ([] : List Str)))
            else (qbSelect qb0 (aliasStr ++ ".id".data), [aliasStr ++ ".id".data], sf)) : QBState × List Str × List Str).1,
          joined := ([] : List Str),
          cols := ((if ("*".data ∈ selectFields) then
              (let p := (rootWildcardFields.foldl
                (fun (p : QBState × List Str) f =>
                  guardedAddSelect p.1 p.2 (aliasStr ++ ".".data ++ f) none)
                (qbSelect qb0 (aliasStr ++ ".id".data), [aliasStr ++ ".id".data]));
              (p.1, p.2, ([] : List Str)))
            else (qbSelect qb0 (aliasStr ++ ".id".data), [aliasStr ++ ".id".data], sf)) : QBState × List Str × List Str).2.1,
          sortFields := ((if ("*".data ∈ selectFields) then
              (let p := (rootWildcardFields.foldl
                (fun (p : QBState × List Str) f =>
                  guardedAddSelect p.1 p.2 (aliasStr ++ ".".data ++ f) none)
                (qbSelect qb0 (aliasStr ++ ".id".data), [aliasStr ++ ".id".data]));
              (p.1, p.2, ([] : List Str)))
            else (qbSelect qb0 (aliasStr ++ ".id".data), [aliasStr ++ ".id".data], sf)) : QBState × List Str × List Str).2.2 }).st.selects :=
    pre_foldP2 _ (fun c x => pre_processSelectField o aliasStr w _ c x)
      selectFields _ _ base
  exact pre_ite (¬ ("*".data ∈ selectFields))
    ((selectFields.foldl (processSelectField o aliasStr w
        (decide ("*".data ∈ selectFields)))
      { st := ((if ("*".data ∈ selectFields) then
            (let p := (rootWildcardFields.foldl
              (fun (p : QBState × List Str) f =>
                guardedAddSelect p.1 p.2 (aliasStr ++ ".".data ++ f) none)
              (qbSelect qb0 (aliasStr ++ ".id".data), [aliasStr ++ ".id".data]));
            (p.1, p.2, ([] : List Str)))
          else (qbSelect qb0 (aliasStr ++ ".id".data), [aliasStr ++ ".id".data], sf)) : QBState × List Str × List Str).1,
        joined := ([] : List Str),
        cols := ((if ("*".data ∈ selectFields) then
            (let p := (rootWildcardFields.foldl
              (fun (p : QBState × List Str) f =>
                guardedAddSelect p.1 p.2 (aliasStr ++ ".".data ++ f) none)
              (qbSelect qb0 (aliasStr ++ ".id".data), [aliasStr ++ ".id".data]));
            (p.1, p.2, ([] : List Str)))
          else (qbSelect qb0 (aliasStr ++ ".id".data), [aliasStr ++ ".id".data], sf)) : QBState × List Str × List Str).2.1,
        sortFields := ((if ("*".data ∈ selectFields) then
            (let p := (rootWildcardFields.foldl
              (fun (p : QBState × List Str) f =>
                guardedAddSelect p.1 p.2 (aliasStr ++ ".".data ++ f) none)
              (qbSelect qb0 (aliasStr ++ ".id".data), [aliasStr ++ ".id".data]));
            (p.1, p.2, ([] : List Str)))
          else (qbSelect qb0 (aliasStr ++ ".id".data), [aliasStr ++ ".id".data], sf)) : QBState × List Str × List Str).2.2 }).sortFields.foldl
      (processSortField o aliasStr)
      (selectFields.foldl (processSelectField o aliasStr w
          (decide ("*".data ∈ selectFields)))
        { st := ((if ("*".data ∈ selectFields) then
              (let p := (rootWildcardFields.foldl
                (fun (p : QBState × List Str) f =>
                  guardedAddSelect p.1 p.2 (aliasStr ++ ".".data ++ f) none)
                (qbSelect qb0 (aliasStr ++ ".id".data), [aliasStr ++ ".id".data]));
              (p.1, p.2, ([] : List Str)))
            else (qbSelect qb0 (aliasStr ++ ".id".data), [aliasStr ++ ".id".data], sf)) : QBState × List Str × List Str).1,
          joined := ([] : List Str),
          cols := ((if ("*".data ∈ selectFields) then
              (let p := (rootWildcardFields.foldl
                (fun (p : QBState × List Str) f =>
                  guardedAddSelect p.1 p.2 (aliasStr ++ ".".data ++ f) none)
                (qbSelect qb0 (aliasStr ++ ".id".data), [aliasStr ++ ".id".data]));
              (p.1, p.2, ([] : List Str)))
            else (qbSelect qb0 (aliasStr ++ ".id".data), [aliasStr ++ ".id".data], sf)) : QBState × List Str × List Str).2.1,
          sortFields := ((if ("*".data ∈ selectFields) then
              (let p := (rootWildcardFields.foldl
                (fun (p : QBState × List Str) f =>
                  guardedAddSelect p.1 p.2 (aliasStr ++ ".".data ++ f) none)
                (qbSelect qb0 (aliasStr ++ ".id".data), [aliasStr ++ ".id".data]));
              (p.1, p.2, ([] : List Str)))
            else (qbSelect qb0 (aliasStr ++ ".id".data), [aliasStr ++ ".id".data], sf)) : QBState × List Str × List Str).2.2 }))
    (selectFields.foldl (processSelectField o aliasStr w
        (decide ("*".data ∈ selectFields)))
      { st := ((if ("*".data ∈ selectFields) then
            (let p := (rootWildcardFields.foldl
              (fun (p : QBState × List Str) f =>
                guardedAddSelect p.1 p.2 (aliasStr ++ ".".data ++ f) none)
              (qbSelect qb0 (aliasStr ++ ".id".data), [aliasStr ++ ".id".data]));
            (p.1, p.2, ([] : List Str)))
          else (qbSelect qb0 (aliasStr ++ ".id".data), [aliasStr ++ ".id".data], sf)) : QBState × List Str × List Str).1,
        joined := ([] : List Str),
        cols := ((if ("*".data ∈ selectFields) then
            (let p := (rootWildcardFields.foldl
              (fun (p : QBState × List Str) f =>
                guardedAddSelect p.1 p.2 (aliasStr ++ ".".data ++ f) none)
              (qbSelect qb0 (aliasStr ++ ".id".data), [aliasStr ++ ".id".data]));
            (p.1, p.2, ([] : List Str)))
          else (qbSelect qb0 (aliasStr ++ ".id".data), [aliasStr ++ ".id".data], sf)) : QBState × List Str × List Str).2.1,
        sortFields := ((if ("*".data ∈ selectFields) then
            (let p := (rootWildcardFields.foldl
              (fun (p : QBState × List Str) f =>
                guardedAddSelect p.1 p.2 (aliasStr ++ ".".data ++ f) none)
              (qbSelect qb0 (aliasStr ++ ".id".data), [aliasStr ++ ".id".data]));
            (p.1, p.2, ([] : List Str)))
          else (qbSelect qb0 (aliasStr ++ ".id".data), [aliasStr ++ ".id".data], sf)) : QBState × List Str × List Str).2.2 })
    [(aliasStr ++ ".id".data, (none : Option Str))]
    (pre_foldP2 _ (fun c x => pre_processSortField o aliasStr c x) _ _ _ mid)
    mid

theorem selectStage_keeps_id (o : Options) (aliasStr : Str) (q : Query)
    (w sf : List Str) (qb0 : QBState) (s : Str)
    (hsel : q.select = some s) (hne : s ≠ []) :
    [(aliasStr ++ ".id".data, (none : Option Str))] <+:
      (selectStage o aliasStr q w sf qb0).st.selects := by
  simp only [selectStage, hsel]
  rw [if_neg hne]
  exact pre_sel_body o aliasStr w sf qb0 (jsSplitL o.VALUE_DELIMITER s)

theorem joinStage_extends (o : Options) (aliasStr : Str) (q : Query)
    (w : List Str) (n : NestedMap) (ctx : SelCtx) :
    ctx.st.selects <+: (joinStage o aliasStr q w n ctx).st.selects := by
  simp only [joinStage]
  split
  · split
    · exact listSelfPre _
    · exact pre_foldP _ (fun c x => pre_processJoin o aliasStr w n q.select c x) _ _
  · exact listSelfPre _

theorem foldl_selects_eq {α : Type} (f : QBState → α → QBState)
    (h : ∀ st x, (f st x).selects = st.selects) :
    ∀ (l : List α) (st : QBState), (l.foldl f st).selects = st.selects := by
  intro l
  induction l with
  | nil => intro st; rfl
  | cons x xs ih => intro st; rw [List.foldl_cons, ih (f st x), h st x]

theorem enumFold_selects (o : Options) (aliasStr : Str) (rnd : Nat → Nat → Str)
    (rest : List (List (Str × JSVal))) (st0 : QBState) :
    (rest.enum.foldl (fun st p =>
      qbOrWhere st (applyWhereConditions o aliasStr p.2 (rnd (p.1 + 1)))) st0).selects =
      st0.selects := by
  apply foldl_selects_eq
  intro st x
  rfl

theorem filterStage_selects (o : Options) (aliasStr : Str) (q : Query)
    (rnd : Nat → Nat → Str) (st stf : QBState)
    (h : filterStage o aliasStr q rnd st = .ok stf) : stf.selects = st.selects := by
  unfold filterStage at h
  split at h
  · split at h
    · injection h with h2
      rw [← h2]
    · obtain ⟨wcs, hp, hg⟩ := except_bind_ok h
      match wcs with
      | [] =>
        simp only [pure, Except.pure] at hg
        injection hg with h2
        rw [← h2]
      | c0 :: rest =>
        simp only [pure, Except.pure] at hg
        injection hg with h2
        rw [← h2, enumFold_selects]
        rfl
  · injection h with h2
    rw [← h2]

theorem sortStage_selects (o : Options) (aliasStr : Str) (q : Query) (st : QBState) :
    (sortStage o aliasStr q st).selects = st.selects := by
  simp only [sortStage]
  split
  · split
    · rfl
    · refine foldl_selects_eq _ ?_ _ _
      intro st' p
      dsimp only
      repeat' split
      all_goals rfl
  · rfl

theorem paginationStage_selects (o : Options) (q : Query) (st : QBState) :
    (paginationStage o q st).selects = st.selects := by
  simp only [paginationStage]
  repeat' split
  all_goals rfl

theorem stages_keep_id (o : Options) (aliasStr : Str) (q : Query)
    (w : List Str) (n : NestedMap) (sf : List Str) (qb0 : QBState) (s : Str)
    (hsel : q.select = some s) (hne : s ≠ []) :
    [(aliasStr ++ ".id".data, (none : Option Str))] <+:
      (joinStage o aliasStr q w n (selectStage o aliasStr q w sf qb0)).st.selects :=
  (selectStage_keeps_id o aliasStr q w sf qb0 s hsel hne).trans
    (joinStage_extends o aliasStr q w n _)

/-- C8: for a parameter bag requesting the same relation R both through the
select entry `R.*` and the join entry `R` (R non-empty and free of the
delimiter characters), `buildAdvanced` under default options issues exactly
one join clause for that relation on top of the caller's builder, and the
selected column references are pairwise distinct (each column selected at
most once). -/
theorem c8_wildcard_join_dedup (R aliasStr : Str) (qb0 : QBState) (rnd : Nat → Nat → Str)
    (hR : R ≠ []) (hdot : ('.' : Char) ∉ R) (hcomma : (',' : Char) ∉ R)
    (hcolon : (':' : Char) ∉ R) :
    ∀ st, buildAdvanced defaultOptions
        { select := some (R ++ ".*".data), join := some R } aliasStr qb0 rnd = .ok st →
      st.joins = qb0.joins ++
        [(false, aliasStr ++ ".".data ++ R, aliasStr ++ "__".data ++ R)] ∧
      (st.selects.map Prod.fst).Nodup := by
  have hlen2 : (".*".data : Str).length = 2 := by decide
  have hs8ne : R ++ ".*".data ≠ [] := by
    intro h
    have := congrArg List.length h
    simp [List.length_append, hlen2] at this
  have hcleanR : ∀ c ∈ R, c ∉ (['.'] : Str) := by
    intro c hc hin
    simp only [List.mem_singleton] at hin
    subst hin
    exact hdot hc
  have hsplitdot : jsSplitL (".".data) (R ++ ".*".data) = [R, "*".data] := by
    have he : R ++ ".*".data = R ++ ".".data ++ "*".data := by
      rw [List.append_assoc]
      rfl
    rw [he, jsSplitL_append_clean (by decide) hcleanR]
    rw [jsSplitL_of_no_sep (by
      intro hinf
      have := singleton_infix_iff.mp hinf
      revert this
      decide)]
  have hcontains : containsSub (".".data) (R ++ ".*".data) = true :=
    containsSub_iff.mpr ⟨R, "*".data, by rw [List.append_assoc]; rfl⟩
  have hfieldsplit : jsSplitL (",".data) (R ++ ".*".data) = [R ++ ".*".data] := by
    apply jsSplitL_of_no_sep
    intro hinf
    have hm := singleton_infix_iff.mp hinf
    rcases List.mem_append.mp hm with hm1 | hm2
    · exact hcomma hm1
    · revert hm2
      decide
  have hjoinfields : jsSplitL (",".data) R = [R] := by
    apply jsSplitL_of_no_sep
    intro hinf
    exact hcomma (singleton_infix_iff.mp hinf)
  have hjoincolon : jsSplitL (":".data) R = [R] := by
    apply jsSplitL_of_no_sep
    intro hinf
    exact hcolon (singleton_infix_iff.mp hinf)
  have hnostar : ¬ (("*".data : Str) ∈ [R ++ ".*".data]) := by
    intro hmem
    simp only [List.mem_singleton] at hmem
    have := congrArg List.length hmem
    simp [List.length_append, hlen2] at this
  have hfieldsplit' : jsSplitL defaultOptions.VALUE_DELIMITER (R ++ ".*".data) =
      [R ++ ".*".data] := hfieldsplit
  have hcontains2 : containsSub defaultOptions.RELATION_DELIMITER (R ++ ".*".data) = true :=
    hcontains
  have hsplitdot2 : jsSplitL defaultOptions.RELATION_DELIMITER (R ++ ".*".data) =
      [R, "*".data] := hsplitdot
  have hstar2 : R ++ ".*".data ≠ "*".data := by
    intro h
    have h2 := congrArg List.length h
    have e1 : (".*".data).length = 2 := rfl
    have e2 : ("*".data).length = 1 := rfl
    rw [List.length_append, e1, e2] at h2
    omega
  have hproc : processSelectField defaultOptions aliasStr [R] false
      { st := qbSelect qb0 (aliasStr ++ ".id".data), joined := [],
        cols := [aliasStr ++ ".id".data], sortFields := [] }
      (R ++ ".*".data) =
      { st := ((getEntityColumns R).foldl (fun p column =>
          guardedAddSelect p.1 p.2 (aliasStr ++ "__".data ++ R ++ ".".data ++ column)
            (some (aliasStr ++ "__".data ++ R ++ "_".data ++ column)))
          (qbLeftJoin (qbSelect qb0 (aliasStr ++ ".id".data))
            (aliasStr ++ ".".data ++ R) (aliasStr ++ "__".data ++ R),
           [aliasStr ++ ".id".data])).1,
        joined := [R],
        cols := ((getEntityColumns R).foldl (fun p column =>
          guardedAddSelect p.1 p.2 (aliasStr ++ "__".data ++ R ++ ".".data ++ column)
            (some (aliasStr ++ "__".data ++ R ++ "_".data ++ column)))
          (qbLeftJoin (qbSelect qb0 (aliasStr ++ ".id".data))
            (aliasStr ++ ".".data ++ R) (aliasStr ++ "__".data ++ R),
           [aliasStr ++ ".id".data])).2,
        sortFields := [] } := by
    simp only [processSelectField]
    rw [if_neg hs8ne, if_neg hstar2, hcontains2, if_pos rfl, hsplitdot2]
    simp [hR]
  have hselstage : selectStage defaultOptions aliasStr
      { select := some (R ++ ".*".data), join := some R } [R] [] qb0 =
      { st := ((getEntityColumns R).foldl (fun p column =>
          guardedAddSelect p.1 p.2 (aliasStr ++ "__".data ++ R ++ ".".data ++ column)
            (some (aliasStr ++ "__".data ++ R ++ "_".data ++ column)))
          (qbLeftJoin (qbSelect qb0 (aliasStr ++ ".id".data))
            (aliasStr ++ ".".data ++ R) (aliasStr ++ "__".data ++ R),
           [aliasStr ++ ".id".data])).1,
        joined := [R],
        cols := ((getEntityColumns R).foldl (fun p column =>
          guardedAddSelect p.1 p.2 (aliasStr ++ "__".data ++ R ++ ".".data ++ column)
            (some (aliasStr ++ "__".data ++ R ++ "_".data ++ column)))
          (qbLeftJoin (qbSelect qb0 (aliasStr ++ ".id".data))
            (aliasStr ++ ".".data ++ R) (aliasStr ++ "__".data ++ R),
           [aliasStr ++ ".id".data])).2,
        sortFields := [] } := by
    simp only [selectStage]
    rw [if_neg hs8ne, hfieldsplit']
    have hx : (['*'] : Str) ∉ [R ++ ".*".data] := hnostar
    simp only [if_pos hx, if_neg hx, decide_eq_false hx]
    simp only [List.foldl_cons, List.foldl_nil]
    rw [hproc]
    rfl
  have hiden : identifyNestedRelations defaultOptions (R ++ ".*".data) ([], []) =
      ([R], []) := by
    simp only [identifyNestedRelations]
    rw [hfieldsplit']
    simp only [List.foldl_cons, List.foldl_nil]
    rw [hcontains2, if_pos rfl, hsplitdot2]
    simp [addToSet]
  have hpj : ∀ ctx : SelCtx, R ∈ ctx.joined →
      processJoin defaultOptions aliasStr [R] [] (some (R ++ ".*".data)) ctx R = ctx := by
    intro ctx hmem
    simp only [processJoin]
    rw [if_neg hR, hjoincolon]
    simp [hmem, hR]
  have hjs : ∀ ctx : SelCtx, R ∈ ctx.joined →
      joinStage defaultOptions aliasStr
        { select := some (R ++ ".*".data), join := some R } [R] [] ctx = ctx := by
    intro ctx hmem
    simp only [joinStage]
    rw [if_neg hR]
    have hjf : jsSplitL defaultOptions.VALUE_DELIMITER R = [R] := hjoinfields
    rw [hjf]
    simp only [List.foldl_cons, List.foldl_nil]
    exact hpj ctx hmem
  have hba : buildAdvanced defaultOptions
      { select := some (R ++ ".*".data), join := some R } aliasStr qb0 rnd =
      .ok (qbTake ((getEntityColumns R).foldl (fun p column =>
          guardedAddSelect p.1 p.2 (aliasStr ++ "__".data ++ R ++ ".".data ++ column)
            (some (aliasStr ++ "__".data ++ R ++ "_".data ++ column)))
          (qbLeftJoin (qbSelect qb0 (aliasStr ++ ".id".data))
            (aliasStr ++ ".".data ++ R) (aliasStr ++ "__".data ++ R),
           [aliasStr ++ ".id".data])).1
        (jsParseInt defaultOptions.DEFAULT_LIMIT)) := by
    simp only [buildAdvanced, collectSortFields]
    rw [if_neg hs8ne, hiden, hselstage]
    rw [hjs]
    simp only [filterStage, bind, Except.bind, sortStage, paginationStage]
    rw [if_pos (show defaultOptions.DEFAULT_LIMIT ≠ [] by decide)]
    rfl
    simp
  intro st hst
  rw [hba] at hst
  injection hst with h
  subst h
  constructor
  case left =>
    rw [joins_qbTake, guardedFold_joins]
    simp [qbLeftJoin, qbSelect]
  case right =>
    have h0 : (qbLeftJoin (qbSelect qb0 (aliasStr ++ ".id".data))
        (aliasStr ++ ".".data ++ R) (aliasStr ++ "__".data ++ R)).selects.map Prod.fst =
        [aliasStr ++ ".id".data] := by
      simp [qbLeftJoin, qbSelect]
    have hinv := guardedFold_inv
      (fun c => aliasStr ++ "__".data ++ R ++ ".".data ++ c)
      (fun c => some (aliasStr ++ "__".data ++ R ++ "_".data ++ c))
      (getEntityColumns R) _ _ h0
    simp only [] at hinv
    rw [show ∀ (x : QBState) (n : JSNumber), (qbTake x n).selects = x.selects
      from fun x n => rfl]
    rw [hinv.1]
    exact hinv.2 (by simp)

theorem c8_wildcard_join_dedup_witness :
    ∃ st, buildAdvanced defaultOptions
        { select := some "status.*".data, join := some "status".data } "task".data
        ({} : QBState) (fun _ _ => []) = .ok st ∧
      st.joins = ({} : QBState).joins ++
        [(false, "task".data ++ ".".data ++ "status".data,
          "task".data ++ "__".data ++ "status".data)] ∧
      (st.selects.map Prod.fst).Nodup := by
  refine ⟨_, rfl, ?_⟩
  exact c8_wildcard_join_dedup "status".data "task".data ({} : QBState)
    (fun _ _ => []) (by decide) (by decide) (by decide) (by decide) _ rfl

/-- C10: whenever a non-empty select parameter is given, the state built by
`buildAdvanced` has the root column `{alias}.id` as its first (initial)
selection, regardless of whether `id` is among the requested fields or a
root wildcard is present; every later entry was appended after it. -/
theorem c10_root_id_always_selected (o : Options) (q : Query) (aliasStr : Str) (qb0 : QBState)
    (rnd : Nat → Nat → Str) (s : Str) (hsel : q.select = some s) (hne : s ≠ [])
    (st : QBState) (hst : buildAdvanced o q aliasStr qb0 rnd = .ok st) :
    ∃ t, st.selects = (aliasStr ++ ".id".data, (none : Option Str)) :: t := by
  simp only [buildAdvanced] at hst
  obtain ⟨stf, hX, hg⟩ := except_bind_ok hst
  simp only [pure, Except.pure] at hg
  injection hg with h2
  rw [← h2]
  rw [paginationStage_selects, sortStage_selects,
    filterStage_selects o aliasStr q rnd _ stf hX]
  exact (stages_keep_id o aliasStr q _ _ _ qb0 s hsel hne).imp
    (fun t ht => by rw [← ht]; rfl)

theorem c10_root_id_always_selected_witness :
    ∃ st, buildAdvanced defaultOptions { select := some "name".data } "task".data
        ({} : QBState) (fun _ _ => []) = .ok st ∧
      ∃ t, st.selects = ("task".data ++ ".id".data, (none : Option Str)) :: t := by
  refine ⟨_, rfl, ?_⟩
  exact c10_root_id_always_selected defaultOptions { select := some "name".data }
    "task".data ({} : QBState) (fun _ _ => []) "name".data rfl (by decide) _ rfl

end UrlQuery
